import Mathlib

/-!
# Hackflight altitude-hold PID controller

A shallow embedding of `src/pidcontrollers/althold.hpp` (class `hf::AltitudeHoldPid`).

* C++ `float` values are modelled by rationals `ℚ` (exact arithmetic, no rounding, no NaN).
* The only arithmetic in the given methods is the `float` product of line 64.  `computeVelF32`
  and `modifyDemandsF32` repeat the two methods with that product rounded to binary32
  (`roundBinary32`); they agree with `computeVel` and `modifyDemands` on every in-band tick and
  whenever the product is a binary32 value (`modifyDemandsF32_eq_some_modifyDemands`).
* Methods that mutate the object become functions returning the new object next to
  their result.
* `computeVel` and `modifyDemands` are marked irreducible so that elaboration never evaluates
  rational arithmetic by unfolding them; proofs go through `modifyDemands_eq` and the field
  lemmas derived from it.
* The class `Pid` is declared in a header that is not part of the given sources.  The
  controller is therefore embedded over an arbitrary implementation `PidOps P` of the three
  `Pid` operations it calls (`init`, `reset`, `compute`); the primitive described in the
  specification is given as the instance `Pid.ops`.
-/

namespace hf

/-! ## Data types -/

/-- Modelled from the spec: `state_t` of `datatypes.hpp` (not in the given sources), a snapshot
exposing `location[3]` and `inertialVel[3]`; index 2 is the vertical axis. -/
structure state_t where
  location : Fin 3 → ℚ
  inertialVel : Fin 3 → ℚ

/-- Modelled from the spec: `demands_t` of `datatypes.hpp` (not in the given sources), the
record of the four normalised demands. -/
structure demands_t where
  throttle : ℚ
  roll : ℚ
  pitch : ℚ
  yaw : ℚ

/-! ## The Pid primitive -/

/-- Modelled from the spec: the operations of class `Pid` that `AltitudeHoldPid` calls.  The
class itself is declared outside the given sources, so the controller takes an implementation
as a parameter.  `compute p setpoint measured` gives the correction and the updated object. -/
structure PidOps (P : Type) where
  init : ℚ → ℚ → ℚ → P
  reset : P → P
  compute : P → ℚ → ℚ → ℚ × P

/-- Modelled from the spec: the state of a `Pid` (section 3): gains, integral accumulator and
previous error. -/
structure Pid where
  Kp : ℚ
  Ki : ℚ
  Kd : ℚ
  integral : ℚ
  prevError : ℚ
deriving DecidableEq

/-- Modelled from the spec: `Pid::init`, which stores the three gains; the accumulator and the
previous error start at zero. -/
def Pid.init (Kp Ki Kd : ℚ) : Pid :=
  { Kp := Kp, Ki := Ki, Kd := Kd, integral := 0, prevError := 0 }

/-- Modelled from the spec: `Pid::reset` (section 4.1) zeroes integral and previous error
without changing gains. -/
def Pid.reset (p : Pid) : Pid :=
  { p with integral := 0, prevError := 0 }

/-- Modelled from the spec: `Pid::compute` (section 4.1) accumulates the error, tracks the
previous error and produces `Kp*error + Ki*integral + Kd*derivative`. -/
def Pid.compute (p : Pid) (setpoint measured : ℚ) : ℚ × Pid :=
  let error := setpoint - measured
  let integral := p.integral + error
  let derivative := error - p.prevError
  (p.Kp * error + p.Ki * integral + p.Kd * derivative,
    { p with integral := integral, prevError := error })

/-- Modelled from the spec: the `Pid` primitive of section 4.1 packaged as an implementation of
the operations used by the controller. -/
def Pid.ops : PidOps Pid where
  init := Pid.init
  reset := Pid.reset
  compute := Pid.compute

/-- One call made on a `Pid` object. -/
inductive PidCall where
  | reset : PidCall
  | compute (setpoint measured : ℚ) : PidCall
deriving DecidableEq

/-- Instrumentation: an implementation that behaves as `ops` and appends every call made on
the object to a log carried next to it. -/
def PidOps.traced {P : Type} (ops : PidOps P) : PidOps (P × List PidCall) where
  init := fun Kp Ki Kd => (ops.init Kp Ki Kd, [])
  reset := fun p => (ops.reset p.1, p.2 ++ [PidCall.reset])
  compute := fun p s m =>
    ((ops.compute p.1 s m).1, ((ops.compute p.1 s m).2, p.2 ++ [PidCall.compute s m]))

/-- Number of `reset` calls in a call log. -/
def resetCount (log : List PidCall) : Nat :=
  log.count PidCall.reset

/-! ## AltitudeHoldPid -/

/-- Constant `PILOT_VELZ_MAX = 2.5f` (althold.hpp line 34). -/
def PILOT_VELZ_MAX : ℚ := 2.5

/-- Constant `STICK_DEADBAND = 0.10` (althold.hpp line 35). -/
def STICK_DEADBAND : ℚ := 0.10

/-- The member variables of `AltitudeHoldPid` (althold.hpp lines 37-47). -/
structure AltitudeHoldPid (P : Type) where
  _inBandPrev : Bool
  didReset : Bool
  _posPid : P
  _velPid : P
  _altitudeTarget : ℚ

/-- Constructor `AltitudeHoldPid(Kp_pos, Kp_vel, Ki_vel, Kd_vel)` (althold.hpp lines 93-101). -/
def AltitudeHoldPid.new {P : Type} (ops : PidOps P) (Kp_pos Kp_vel Ki_vel Kd_vel : ℚ) :
    AltitudeHoldPid P :=
  { _posPid := ops.init Kp_pos 0 0
    _velPid := ops.init Kp_vel Ki_vel Kd_vel
    _inBandPrev := false
    didReset := false
    _altitudeTarget := 0 }

/-- Method `computeVel` (althold.hpp lines 49-68): returns the correction and the updated
controller. -/
@[irreducible] def AltitudeHoldPid.computeVel {P : Type} (ops : PidOps P) (self : AltitudeHoldPid P)
    (demand inBandTargetVelocity outOfBandTargetScale actualVelocity : ℚ) :
    ℚ × AltitudeHoldPid P :=
  let self := { self with didReset := false }
  -- Is stick demand in deadband?
  let inBand : Bool := decide (|demand| < STICK_DEADBAND)
  -- Reset controller when moving into deadband
  let self :=
    if inBand && !self._inBandPrev then
      { self with _velPid := ops.reset self._velPid, didReset := true }
    else self
  let self := { self with _inBandPrev := inBand }
  -- Target velocity is a setpoint inside deadband, scaled constant outside
  let targetVelocity := if inBand then inBandTargetVelocity else outOfBandTargetScale * demand
  -- Run velocity PID controller to get correction
  let r := ops.compute self._velPid targetVelocity actualVelocity
  (r.1, { self with _velPid := r.2 })

/-- Method `modifyDemands` (althold.hpp lines 72-84): returns the updated controller, the
vehicle state behind the pointer and the updated demands. -/
@[irreducible] def AltitudeHoldPid.modifyDemands {P : Type} (ops : PidOps P) (self : AltitudeHoldPid P)
    (state : state_t) (demands : demands_t) : AltitudeHoldPid P × state_t × demands_t :=
  let altitude := state.location 2
  -- the argument `_posPid.compute(_altitudeTarget, altitude)` is evaluated before the call
  let p := ops.compute self._posPid self._altitudeTarget altitude
  let self := { self with _posPid := p.2 }
  let r := AltitudeHoldPid.computeVel ops self demands.throttle p.1 PILOT_VELZ_MAX
    (state.inertialVel 2)
  let demands := { demands with throttle := r.1 }
  let self := r.2
  -- If we re-entered deadband, we reset the target altitude.
  let self := if self.didReset then { self with _altitudeTarget := altitude } else self
  (self, state, demands)

/-- Method `shouldFlashLed` (althold.hpp lines 86-89). -/
def AltitudeHoldPid.shouldFlashLed {P : Type} (self : AltitudeHoldPid P) :
    Bool × AltitudeHoldPid P :=
  (true, self)

/-! ## Sequences of ticks -/

/-- The controller after a sequence of control-loop ticks, each tick calling `modifyDemands`
once with that tick's vehicle state and incoming demands. -/
def AltitudeHoldPid.run {P : Type} (ops : PidOps P) (self : AltitudeHoldPid P) :
    List (state_t × demands_t) → AltitudeHoldPid P
  | [] => self
  | t :: ts => AltitudeHoldPid.run ops (AltitudeHoldPid.modifyDemands ops self t.1 t.2).1 ts

/-- A tick given by its throttle demand, altitude and vertical velocity (everything else 0). -/
def mkTick (throttle altitude velZ : ℚ) : state_t × demands_t :=
  ({ location := ![0, 0, altitude], inertialVel := ![0, 0, velZ] },
    { throttle := throttle, roll := 0, pitch := 0, yaw := 0 })

/-- Forget the call logs of an instrumented controller. -/
def AltitudeHoldPid.unlog {P : Type} (c : AltitudeHoldPid (P × List PidCall)) :
    AltitudeHoldPid P :=
  { _inBandPrev := c._inBandPrev
    didReset := c.didReset
    _posPid := c._posPid.1
    _velPid := c._velPid.1
    _altitudeTarget := c._altitudeTarget }

/-- Number of outside-to-inside crossings of the deadband in a sequence of throttle demands;
`prev` tells whether the demand before the first one was in band. -/
def crossings (prev : Bool) : List ℚ → Nat
  | [] => 0
  | d :: ds =>
    (if |d| < STICK_DEADBAND ∧ prev = false then 1 else 0) +
      crossings (decide (|d| < STICK_DEADBAND)) ds

/-- Tick `i` of a sequence applied to a fresh controller is a deadband entry: its throttle
demand is in band and the preceding tick's demand is not, the controller counting as out of
band before the first tick. -/
def isEntryAt (ticks : List (state_t × demands_t)) (i : Nat) : Prop :=
  ∃ t, ticks[i]? = some t ∧ |t.2.throttle| < STICK_DEADBAND ∧
    (i = 0 ∨ ∃ u, ticks[i - 1]? = some u ∧ ¬ |u.2.throttle| < STICK_DEADBAND)

/-! ## The controller with the reset latch local to the tick -/

/-- The persistent state of the controller of specification section 9, in which the
"just reset" latch is a variable local to one tick: the member variables of `AltitudeHoldPid`
without `didReset`. -/
structure AltitudeHoldLocal (P : Type) where
  _inBandPrev : Bool
  _posPid : P
  _velPid : P
  _altitudeTarget : ℚ

/-- One tick of the controller of specification sections 4.3 and 9: deadband test, reset of the
velocity loop on entering the band with the local latch `justReset`, target-velocity
selection, inner loop replacing the throttle, and the altitude-target update afterwards. -/
def AltitudeHoldLocal.modifyDemands {P : Type} (ops : PidOps P) (self : AltitudeHoldLocal P)
    (state : state_t) (demands : demands_t) : AltitudeHoldLocal P × state_t × demands_t :=
  let d := demands.throttle
  let currentAltitude := state.location 2
  let inBand : Bool := decide (|d| < STICK_DEADBAND)
  let justReset : Bool := inBand && !self._inBandPrev
  let velPid := if justReset then ops.reset self._velPid else self._velPid
  let outer := ops.compute self._posPid self._altitudeTarget currentAltitude
  let targetVelocity := if inBand then outer.1 else PILOT_VELZ_MAX * d
  let correction := ops.compute velPid targetVelocity (state.inertialVel 2)
  ({ _inBandPrev := inBand
     _posPid := outer.2
     _velPid := correction.2
     _altitudeTarget := if justReset then currentAltitude else self._altitudeTarget },
    state, { demands with throttle := correction.1 })

/-- The controller with the local latch after a sequence of ticks. -/
def AltitudeHoldLocal.run {P : Type} (ops : PidOps P) (self : AltitudeHoldLocal P) :
    List (state_t × demands_t) → AltitudeHoldLocal P
  | [] => self
  | t :: ts => AltitudeHoldLocal.run ops (AltitudeHoldLocal.modifyDemands ops self t.1 t.2).1 ts

/-- Forget the `didReset` member of a controller. -/
def AltitudeHoldPid.toLocal {P : Type} (c : AltitudeHoldPid P) : AltitudeHoldLocal P :=
  { _inBandPrev := c._inBandPrev
    _posPid := c._posPid
    _velPid := c._velPid
    _altitudeTarget := c._altitudeTarget }

/-! ## The binary32 product on line 64 -/

/-- Largest finite binary32 value, `(2^24 - 1) * 2^104`. -/
def FLT_MAX : ℚ := (2 ^ 24 - 1) * 2 ^ 104

/-- Round a rational to the nearest integer, a tie going to the even neighbour. -/
def roundHalfEven (x : ℚ) : ℤ :=
  if x - ⌊x⌋ < 1 / 2 then ⌊x⌋
  else if 1 / 2 < x - ⌊x⌋ then ⌊x⌋ + 1
  else if ⌊x⌋ % 2 = 0 then ⌊x⌋ else ⌊x⌋ + 1

/-- Exponent of the binade of `x` in binary32: the floor of the base-2 logarithm of `|x|`, and
-126 in the subnormal range. -/
def binary32Exponent (x : ℚ) : ℤ := max (Int.log 2 |x|) (-126)

/-- IEEE 754 binary32 rounding of the exact value `x` (round to nearest, ties to even): 24
significant bits, spacing `2^(e - 23)` in the binade of exponent `e`; `none` when the rounded
value exceeds `FLT_MAX`, where the C++ `float` is an infinity. -/
def roundBinary32 (x : ℚ) : Option ℚ :=
  let q : ℚ := 2 ^ (binary32Exponent x - 23)
  let r : ℚ := roundHalfEven (x / q) * q
  if |r| ≤ FLT_MAX then some r else none

/-- Method `computeVel` (althold.hpp lines 49-68) with the `float` product
`outOfBandTargetScale * demand` of line 64 rounded to binary32; `none` when that product
overflows to an infinity. -/
@[irreducible] def AltitudeHoldPid.computeVelF32 {P : Type} (ops : PidOps P)
    (self : AltitudeHoldPid P)
    (demand inBandTargetVelocity outOfBandTargetScale actualVelocity : ℚ) :
    Option (ℚ × AltitudeHoldPid P) :=
  let self := { self with didReset := false }
  -- Is stick demand in deadband?
  let inBand : Bool := decide (|demand| < STICK_DEADBAND)
  -- Reset controller when moving into deadband
  let self :=
    if inBand && !self._inBandPrev then
      { self with _velPid := ops.reset self._velPid, didReset := true }
    else self
  let self := { self with _inBandPrev := inBand }
  -- Target velocity is a setpoint inside deadband, scaled constant outside
  let targetVelocity : Option ℚ :=
    if inBand then some inBandTargetVelocity else roundBinary32 (outOfBandTargetScale * demand)
  -- Run velocity PID controller to get correction
  targetVelocity.map fun tv =>
    ((ops.compute self._velPid tv actualVelocity).1,
      { self with _velPid := (ops.compute self._velPid tv actualVelocity).2 })

/-- Method `modifyDemands` (althold.hpp lines 72-84) over `computeVelF32`. -/
@[irreducible] def AltitudeHoldPid.modifyDemandsF32 {P : Type} (ops : PidOps P)
    (self : AltitudeHoldPid P) (state : state_t) (demands : demands_t) :
    Option (AltitudeHoldPid P × state_t × demands_t) :=
  let altitude := state.location 2
  let p := ops.compute self._posPid self._altitudeTarget altitude
  let self := { self with _posPid := p.2 }
  (AltitudeHoldPid.computeVelF32 ops self demands.throttle p.1 PILOT_VELZ_MAX
      (state.inertialVel 2)).map fun r =>
    let demands := { demands with throttle := r.1 }
    let self := r.2
    -- If we re-entered deadband, we reset the target altitude.
    let self := if self.didReset then { self with _altitudeTarget := altitude } else self
    (self, state, demands)

/-! ## Basic facts about one tick -/

/-- One tick written out: the result of `modifyDemands` field by field. -/
theorem modifyDemands_eq {P : Type} (ops : PidOps P) (c : AltitudeHoldPid P)
    (st : state_t) (dem : demands_t) :
    c.modifyDemands ops st dem =
      ({ _inBandPrev := decide (|dem.throttle| < STICK_DEADBAND)
         didReset := decide (|dem.throttle| < STICK_DEADBAND) && !c._inBandPrev
         _posPid := (ops.compute c._posPid c._altitudeTarget (st.location 2)).2
         _velPid := (ops.compute
            (if (decide (|dem.throttle| < STICK_DEADBAND) && !c._inBandPrev) = true
              then ops.reset c._velPid else c._velPid)
            (if |dem.throttle| < STICK_DEADBAND
              then (ops.compute c._posPid c._altitudeTarget (st.location 2)).1
              else PILOT_VELZ_MAX * dem.throttle)
            (st.inertialVel 2)).2
         _altitudeTarget :=
            if (decide (|dem.throttle| < STICK_DEADBAND) && !c._inBandPrev) = true
              then st.location 2 else c._altitudeTarget },
       st,
       { dem with throttle := (ops.compute
            (if (decide (|dem.throttle| < STICK_DEADBAND) && !c._inBandPrev) = true
              then ops.reset c._velPid else c._velPid)
            (if |dem.throttle| < STICK_DEADBAND
              then (ops.compute c._posPid c._altitudeTarget (st.location 2)).1
              else PILOT_VELZ_MAX * dem.throttle)
            (st.inertialVel 2)).1 }) := by
  unfold AltitudeHoldPid.modifyDemands AltitudeHoldPid.computeVel
  by_cases hb : |dem.throttle| < STICK_DEADBAND <;> cases hp : c._inBandPrev <;> simp [hb, hp]

theorem modifyDemands_altitudeTarget {P : Type} (ops : PidOps P) (c : AltitudeHoldPid P)
    (st : state_t) (dem : demands_t) :
    (c.modifyDemands ops st dem).1._altitudeTarget =
      if |dem.throttle| < STICK_DEADBAND ∧ c._inBandPrev = false then st.location 2
      else c._altitudeTarget := by
  rw [modifyDemands_eq]
  by_cases hb : |dem.throttle| < STICK_DEADBAND <;> cases hp : c._inBandPrev <;> simp [hb, hp]

theorem modifyDemands_inBandPrev {P : Type} (ops : PidOps P) (c : AltitudeHoldPid P)
    (st : state_t) (dem : demands_t) :
    (c.modifyDemands ops st dem).1._inBandPrev = decide (|dem.throttle| < STICK_DEADBAND) := by
  rw [modifyDemands_eq]

theorem modifyDemands_didReset {P : Type} (ops : PidOps P) (c : AltitudeHoldPid P)
    (st : state_t) (dem : demands_t) :
    (c.modifyDemands ops st dem).1.didReset =
      (decide (|dem.throttle| < STICK_DEADBAND) && !c._inBandPrev) := by
  rw [modifyDemands_eq]

theorem modifyDemands_posPid {P : Type} (ops : PidOps P) (c : AltitudeHoldPid P)
    (st : state_t) (dem : demands_t) :
    (c.modifyDemands ops st dem).1._posPid =
      (ops.compute c._posPid c._altitudeTarget (st.location 2)).2 := by
  rw [modifyDemands_eq]

theorem modifyDemands_velPid {P : Type} (ops : PidOps P) (c : AltitudeHoldPid P)
    (st : state_t) (dem : demands_t) :
    (c.modifyDemands ops st dem).1._velPid =
      (ops.compute
        (if |dem.throttle| < STICK_DEADBAND ∧ c._inBandPrev = false
          then ops.reset c._velPid else c._velPid)
        (if |dem.throttle| < STICK_DEADBAND
          then (ops.compute c._posPid c._altitudeTarget (st.location 2)).1
          else PILOT_VELZ_MAX * dem.throttle)
        (st.inertialVel 2)).2 := by
  rw [modifyDemands_eq]
  by_cases hb : |dem.throttle| < STICK_DEADBAND <;> cases hp : c._inBandPrev <;> simp [hb, hp]

theorem modifyDemands_throttle {P : Type} (ops : PidOps P) (c : AltitudeHoldPid P)
    (st : state_t) (dem : demands_t) :
    (c.modifyDemands ops st dem).2.2.throttle =
      (ops.compute
        (if |dem.throttle| < STICK_DEADBAND ∧ c._inBandPrev = false
          then ops.reset c._velPid else c._velPid)
        (if |dem.throttle| < STICK_DEADBAND
          then (ops.compute c._posPid c._altitudeTarget (st.location 2)).1
          else PILOT_VELZ_MAX * dem.throttle)
        (st.inertialVel 2)).1 := by
  rw [modifyDemands_eq]
  by_cases hb : |dem.throttle| < STICK_DEADBAND <;> cases hp : c._inBandPrev <;> simp [hb, hp]

theorem run_nil {P : Type} (ops : PidOps P) (c : AltitudeHoldPid P) : c.run ops [] = c := rfl

theorem run_cons {P : Type} (ops : PidOps P) (c : AltitudeHoldPid P)
    (t : state_t × demands_t) (ts : List (state_t × demands_t)) :
    c.run ops (t :: ts) = (c.modifyDemands ops t.1 t.2).1.run ops ts := rfl

theorem run_append {P : Type} (ops : PidOps P) (c : AltitudeHoldPid P)
    (ts us : List (state_t × demands_t)) :
    c.run ops (ts ++ us) = (c.run ops ts).run ops us := by
  induction ts generalizing c with
  | nil => rfl
  | cons t ts ih => simp only [List.cons_append, run_cons, ih]

theorem run_concat {P : Type} (ops : PidOps P) (c : AltitudeHoldPid P)
    (ts : List (state_t × demands_t)) (t : state_t × demands_t) :
    c.run ops (ts ++ [t]) = ((c.run ops ts).modifyDemands ops t.1 t.2).1 := by
  rw [run_append, run_cons, run_nil]

theorem STICK_DEADBAND_eq : STICK_DEADBAND = 1 / 10 := by norm_num [STICK_DEADBAND]

theorem PILOT_VELZ_MAX_eq : PILOT_VELZ_MAX = 5 / 2 := by norm_num [PILOT_VELZ_MAX]

/-! ## The instrumented controller -/

/-- The instrumented controller does what the plain one does. -/
theorem modifyDemands_unlog {P : Type} (ops : PidOps P)
    (c : AltitudeHoldPid (P × List PidCall)) (st : state_t) (dem : demands_t) :
    c.unlog.modifyDemands ops st dem =
      ((c.modifyDemands ops.traced st dem).1.unlog, (c.modifyDemands ops.traced st dem).2) := by
  rw [modifyDemands_eq, modifyDemands_eq]
  by_cases hb : |dem.throttle| < STICK_DEADBAND <;> cases hp : c._inBandPrev <;>
    simp [hb, hp, AltitudeHoldPid.unlog, PidOps.traced]

theorem run_unlog {P : Type} (ops : PidOps P) (c : AltitudeHoldPid (P × List PidCall))
    (ticks : List (state_t × demands_t)) :
    c.unlog.run ops ticks = (c.run ops.traced ticks).unlog := by
  induction ticks generalizing c with
  | nil => rfl
  | cons t ts ih => rw [run_cons, run_cons, modifyDemands_unlog, ih]

/-- Calls made on `_velPid` during one tick: a `reset` when the tick enters the deadband, then
one `compute` with this tick's target velocity. -/
theorem traced_velPid_log {P : Type} (ops : PidOps P) (c : AltitudeHoldPid (P × List PidCall))
    (st : state_t) (dem : demands_t) :
    (c.modifyDemands ops.traced st dem).1._velPid.2 =
      c._velPid.2 ++
        (if |dem.throttle| < STICK_DEADBAND ∧ c._inBandPrev = false then [PidCall.reset] else [])
        ++ [PidCall.compute
            (if |dem.throttle| < STICK_DEADBAND
              then (ops.compute c._posPid.1 c._altitudeTarget (st.location 2)).1
              else PILOT_VELZ_MAX * dem.throttle)
            (st.inertialVel 2)] := by
  rw [modifyDemands_velPid]
  by_cases hb : |dem.throttle| < STICK_DEADBAND <;> cases hp : c._inBandPrev <;>
    simp [hb, hp, PidOps.traced]

/-- Calls made on `_posPid` during one tick: one `compute` with the altitude target held
before the tick and the tick's altitude. -/
theorem traced_posPid_log {P : Type} (ops : PidOps P) (c : AltitudeHoldPid (P × List PidCall))
    (st : state_t) (dem : demands_t) :
    (c.modifyDemands ops.traced st dem).1._posPid.2 =
      c._posPid.2 ++ [PidCall.compute c._altitudeTarget (st.location 2)] := by
  rw [modifyDemands_posPid]
  simp [PidOps.traced]

theorem resetCount_append (l m : List PidCall) :
    resetCount (l ++ m) = resetCount l + resetCount m := by
  simp [resetCount, List.count_append]

theorem traced_velPid_resetCount {P : Type} (ops : PidOps P)
    (c : AltitudeHoldPid (P × List PidCall)) (st : state_t) (dem : demands_t) :
    resetCount (c.modifyDemands ops.traced st dem).1._velPid.2 =
      resetCount c._velPid.2 +
        (if |dem.throttle| < STICK_DEADBAND ∧ c._inBandPrev = false then 1 else 0) := by
  rw [traced_velPid_log, resetCount_append, resetCount_append]
  by_cases hb : |dem.throttle| < STICK_DEADBAND <;> cases hp : c._inBandPrev <;>
    simp [hb, hp, resetCount]

theorem traced_run_resetCount {P : Type} (ops : PidOps P)
    (c : AltitudeHoldPid (P × List PidCall)) (ticks : List (state_t × demands_t)) :
    resetCount (c.run ops.traced ticks)._velPid.2 =
      resetCount c._velPid.2 + crossings c._inBandPrev (ticks.map fun t => t.2.throttle) := by
  induction ticks generalizing c with
  | nil => simp [run_nil, crossings]
  | cons t ts ih =>
    rw [run_cons, ih, traced_velPid_resetCount, modifyDemands_inBandPrev]
    simp only [List.map_cons, crossings]
    omega

/-! ## Sequences without a deadband entry -/

theorem run_altitudeTarget_outside {P : Type} (ops : PidOps P) (c : AltitudeHoldPid P)
    (ticks : List (state_t × demands_t))
    (h : ∀ t ∈ ticks, ¬ |t.2.throttle| < STICK_DEADBAND) :
    (c.run ops ticks)._altitudeTarget = c._altitudeTarget := by
  induction ticks generalizing c with
  | nil => rfl
  | cons t ts ih =>
    rw [run_cons, ih _ (fun u hu => h u (List.mem_cons_of_mem _ hu)),
      modifyDemands_altitudeTarget, if_neg]
    exact fun hh => h t (List.mem_cons_self _ _) hh.1

theorem run_altitudeTarget_inside {P : Type} (ops : PidOps P) (c : AltitudeHoldPid P)
    (ticks : List (state_t × demands_t)) (hprev : c._inBandPrev = true)
    (h : ∀ t ∈ ticks, |t.2.throttle| < STICK_DEADBAND) :
    (c.run ops ticks)._altitudeTarget = c._altitudeTarget := by
  induction ticks generalizing c with
  | nil => rfl
  | cons t ts ih =>
    have ht := h t (List.mem_cons_self _ _)
    rw [run_cons, ih _ (by rw [modifyDemands_inBandPrev]; exact decide_eq_true ht)
      (fun u hu => h u (List.mem_cons_of_mem _ hu)), modifyDemands_altitudeTarget, if_neg]
    rw [hprev]
    exact fun hh => Bool.noConfusion hh.2

/-! ## Deadband entries of a sequence applied to a fresh controller -/

theorem isEntryAt_lt_length {ticks : List (state_t × demands_t)} {i : Nat}
    (h : isEntryAt ticks i) : i < ticks.length := by
  obtain ⟨t, ht, _⟩ := h
  obtain ⟨hi, _⟩ := List.getElem?_eq_some.mp ht
  exact hi

theorem isEntryAt_concat_of_lt (ts : List (state_t × demands_t)) (t : state_t × demands_t)
    {i : Nat} (hi : i < ts.length) : isEntryAt (ts ++ [t]) i ↔ isEntryAt ts i := by
  unfold isEntryAt
  rw [List.getElem?_append_left hi, List.getElem?_append_left (by omega : i - 1 < ts.length)]

theorem isEntryAt_concat_length (ts : List (state_t × demands_t)) (t : state_t × demands_t) :
    isEntryAt (ts ++ [t]) ts.length ↔
      |t.2.throttle| < STICK_DEADBAND ∧
        (ts.length = 0 ∨ ∃ u, ts[ts.length - 1]? = some u ∧ ¬ |u.2.throttle| < STICK_DEADBAND) := by
  unfold isEntryAt
  rw [List.getElem?_concat_length]
  by_cases h0 : ts.length = 0
  · simp [h0]
  · rw [List.getElem?_append_left (by omega : ts.length - 1 < ts.length)]
    simp

theorem run_new_inBandPrev {P : Type} (ops : PidOps P) (Kp_pos Kp_vel Ki_vel Kd_vel : ℚ)
    (ts : List (state_t × demands_t)) :
    ((AltitudeHoldPid.new ops Kp_pos Kp_vel Ki_vel Kd_vel).run ops ts)._inBandPrev = false ↔
      (ts.length = 0 ∨ ∃ u, ts[ts.length - 1]? = some u ∧ ¬ |u.2.throttle| < STICK_DEADBAND) := by
  rcases List.eq_nil_or_concat ts with rfl | ⟨ts, u, rfl⟩
  · simp [run_nil, AltitudeHoldPid.new]
  · rw [List.concat_eq_append, run_concat, modifyDemands_inBandPrev]
    simp

theorem run_new_altitudeTarget {P : Type} (ops : PidOps P) (Kp_pos Kp_vel Ki_vel Kd_vel : ℚ)
    (ticks : List (state_t × demands_t)) :
    (∀ i, isEntryAt ticks i → (∀ j, i < j → ¬ isEntryAt ticks j) →
      ∃ t, ticks[i]? = some t ∧
        ((AltitudeHoldPid.new ops Kp_pos Kp_vel Ki_vel Kd_vel).run ops ticks)._altitudeTarget =
          t.1.location 2) ∧
    ((∀ i, ¬ isEntryAt ticks i) →
      ((AltitudeHoldPid.new ops Kp_pos Kp_vel Ki_vel Kd_vel).run ops ticks)._altitudeTarget
        = 0) := by
  induction ticks using List.reverseRecOn with
  | nil =>
    refine ⟨fun i hi => absurd (isEntryAt_lt_length hi) (by simp), fun _ => rfl⟩
  | append_singleton ts t ih =>
    have hstep := modifyDemands_altitudeTarget ops
      ((AltitudeHoldPid.new ops Kp_pos Kp_vel Ki_vel Kd_vel).run ops ts) t.1 t.2
    rw [← run_concat] at hstep
    have hentry : isEntryAt (ts ++ [t]) ts.length ↔
        (|t.2.throttle| < STICK_DEADBAND ∧
          ((AltitudeHoldPid.new ops Kp_pos Kp_vel Ki_vel Kd_vel).run ops ts)._inBandPrev
            = false) := by
      rw [isEntryAt_concat_length, run_new_inBandPrev]
    by_cases he : isEntryAt (ts ++ [t]) ts.length
    · rw [if_pos (hentry.mp he)] at hstep
      constructor
      · intro i hi hlast
        have hlt := isEntryAt_lt_length hi
        rw [List.length_append, List.length_singleton] at hlt
        have hin : i = ts.length := by
          by_contra hne
          exact hlast ts.length (by omega) he
        subst hin
        exact ⟨t, List.getElem?_concat_length ts t, hstep⟩
      · intro hnone
        exact absurd he (hnone ts.length)
    · rw [if_neg (fun h => he (hentry.mpr h))] at hstep
      rw [hstep]
      constructor
      · intro i hi hlast
        have hlt := isEntryAt_lt_length hi
        rw [List.length_append, List.length_singleton] at hlt
        have hne : i ≠ ts.length := fun h => he (h ▸ hi)
        have hi' : i < ts.length := by omega
        obtain ⟨u, hu, htarget⟩ := ih.1 i ((isEntryAt_concat_of_lt ts t hi').mp hi)
          (fun j hij hj => hlast j hij
            ((isEntryAt_concat_of_lt ts t (isEntryAt_lt_length hj)).mpr hj))
        exact ⟨u, by rw [List.getElem?_append_left hi']; exact hu, htarget⟩
      · intro hnone
        exact ih.2 (fun i hi =>
          hnone i ((isEntryAt_concat_of_lt ts t (isEntryAt_lt_length hi)).mpr hi))

/-! ## The Pid primitive of the specification -/

theorem Pid.compute_fst_of_P_only (p : Pid) (hi : p.Ki = 0) (hd : p.Kd = 0)
    (target measured : ℚ) : (p.compute target measured).1 = p.Kp * (target - measured) := by
  simp [Pid.compute, hi, hd]

theorem Pid.compute_snd_gains (p : Pid) (target measured : ℚ) :
    (p.compute target measured).2.Kp = p.Kp ∧ (p.compute target measured).2.Ki = p.Ki ∧
      (p.compute target measured).2.Kd = p.Kd :=
  ⟨rfl, rfl, rfl⟩

theorem run_posPid_gains (c : AltitudeHoldPid Pid) (ticks : List (state_t × demands_t)) :
    (c.run Pid.ops ticks)._posPid.Kp = c._posPid.Kp ∧
      (c.run Pid.ops ticks)._posPid.Ki = c._posPid.Ki ∧
      (c.run Pid.ops ticks)._posPid.Kd = c._posPid.Kd := by
  induction ticks generalizing c with
  | nil => exact ⟨rfl, rfl, rfl⟩
  | cons t ts ih =>
    rw [run_cons]
    have h := ih (c.modifyDemands Pid.ops t.1 t.2).1
    rw [modifyDemands_posPid] at h
    exact h

/-! ## The persistent latch against the local latch -/

theorem modifyDemands_didReset_irrelevant {P : Type} (ops : PidOps P) (c : AltitudeHoldPid P)
    (b : Bool) (st : state_t) (dem : demands_t) :
    (AltitudeHoldPid.mk c._inBandPrev b c._posPid c._velPid c._altitudeTarget).modifyDemands
      ops st dem = c.modifyDemands ops st dem := by
  rw [modifyDemands_eq, modifyDemands_eq]

theorem modifyDemands_toLocal {P : Type} (ops : PidOps P) (c : AltitudeHoldPid P)
    (st : state_t) (dem : demands_t) :
    c.toLocal.modifyDemands ops st dem =
      ((c.modifyDemands ops st dem).1.toLocal, (c.modifyDemands ops st dem).2) := by
  rw [modifyDemands_eq]
  by_cases hb : |dem.throttle| < STICK_DEADBAND <;> cases hp : c._inBandPrev <;>
    simp [hb, hp, AltitudeHoldPid.toLocal, AltitudeHoldLocal.modifyDemands]

theorem run_toLocal {P : Type} (ops : PidOps P) (c : AltitudeHoldPid P)
    (ticks : List (state_t × demands_t)) :
    c.toLocal.run ops ticks = (c.run ops ticks).toLocal := by
  induction ticks generalizing c with
  | nil => rfl
  | cons t ts ih =>
    have h1 : c.toLocal.run ops (t :: ts) =
        (c.toLocal.modifyDemands ops t.1 t.2).1.run ops ts := rfl
    rw [h1, modifyDemands_toLocal, run_cons]
    exact ih _

theorem modifyDemands_velPid_gains (c : AltitudeHoldPid Pid) (st : state_t) (dem : demands_t) :
    (c.modifyDemands Pid.ops st dem).1._velPid.Kp = c._velPid.Kp ∧
      (c.modifyDemands Pid.ops st dem).1._velPid.Ki = c._velPid.Ki ∧
      (c.modifyDemands Pid.ops st dem).1._velPid.Kd = c._velPid.Kd := by
  rw [modifyDemands_velPid]
  by_cases h : |dem.throttle| < STICK_DEADBAND ∧ c._inBandPrev = false
  · rw [if_pos h]
    exact ⟨rfl, rfl, rfl⟩
  · rw [if_neg h]
    exact ⟨rfl, rfl, rfl⟩

theorem run_velPid_gains (c : AltitudeHoldPid Pid) (ticks : List (state_t × demands_t)) :
    (c.run Pid.ops ticks)._velPid.Kp = c._velPid.Kp ∧
      (c.run Pid.ops ticks)._velPid.Ki = c._velPid.Ki ∧
      (c.run Pid.ops ticks)._velPid.Kd = c._velPid.Kd := by
  induction ticks generalizing c with
  | nil => exact ⟨rfl, rfl, rfl⟩
  | cons t ts ih =>
    rw [run_cons]
    obtain ⟨h1, h2, h3⟩ := ih (c.modifyDemands Pid.ops t.1 t.2).1
    obtain ⟨g1, g2, g3⟩ := modifyDemands_velPid_gains c t.1 t.2
    exact ⟨h1.trans g1, h2.trans g2, h3.trans g3⟩

/-- With a proportional-only velocity PID the written throttle is `Kp` times the difference
between the target velocity and the measured vertical velocity. -/
theorem modifyDemands_throttle_of_P_only (c : AltitudeHoldPid Pid) (st : state_t)
    (dem : demands_t) (hi : c._velPid.Ki = 0) (hd : c._velPid.Kd = 0) :
    (c.modifyDemands Pid.ops st dem).2.2.throttle =
      c._velPid.Kp *
        ((if |dem.throttle| < STICK_DEADBAND
          then (Pid.compute c._posPid c._altitudeTarget (st.location 2)).1
          else PILOT_VELZ_MAX * dem.throttle) - st.inertialVel 2) := by
  rw [modifyDemands_throttle]
  by_cases h : |dem.throttle| < STICK_DEADBAND ∧ c._inBandPrev = false
  · rw [if_pos h]
    exact Pid.compute_fst_of_P_only (Pid.reset c._velPid) hi hd _ _
  · rw [if_neg h]
    exact Pid.compute_fst_of_P_only c._velPid hi hd _ _

theorem throttle_unbounded_of_P_only (c : AltitudeHoldPid Pid) (dem : demands_t)
    (hp : c._velPid.Kp ≠ 0) (hi : c._velPid.Ki = 0) (hd : c._velPid.Kd = 0)
    (B : ℚ) (location : Fin 3 → ℚ) :
    ∃ inertialVel : Fin 3 → ℚ,
      B < |(c.modifyDemands Pid.ops (state_t.mk location inertialVel) dem).2.2.throttle| := by
  refine ⟨fun _ => (if |dem.throttle| < STICK_DEADBAND
      then (Pid.compute c._posPid c._altitudeTarget (location 2)).1
      else PILOT_VELZ_MAX * dem.throttle) - (|B| + 1) / c._velPid.Kp, ?_⟩
  rw [modifyDemands_throttle_of_P_only c _ dem hi hd]
  simp only [sub_sub_cancel]
  rw [mul_div_cancel₀ _ hp, abs_of_pos (by positivity)]
  linarith [le_abs_self B]

/-! ## Binary32 rounding -/

theorem roundHalfEven_intCast (n : ℤ) : roundHalfEven (n : ℚ) = n := by
  simp [roundHalfEven]

theorem roundHalfEven_tie_even (n : ℤ) (h : n % 2 = 0) : roundHalfEven ((n : ℚ) + 1 / 2) = n := by
  have hf : ⌊(n : ℚ) + 1 / 2⌋ = n := by
    rw [Int.floor_eq_iff]
    constructor <;> norm_num
  unfold roundHalfEven
  rw [hf]
  norm_num [h]

theorem abs_roundHalfEven_sub_le (x : ℚ) : |(roundHalfEven x : ℚ) - x| ≤ 1 / 2 := by
  have h1 := Int.floor_le x
  have h2 := Int.lt_floor_add_one x
  unfold roundHalfEven
  rw [abs_le]
  split_ifs with ha hb hc <;> push_cast <;> constructor <;> linarith

theorem abs_roundHalfEven_le (y : ℚ) (K : ℤ) (h : |y| ≤ K) : |(roundHalfEven y : ℚ)| ≤ K := by
  rw [abs_le] at h
  have h1 := Int.floor_le y
  have hlo : -K ≤ ⌊y⌋ := by
    rw [Int.le_floor]
    push_cast
    exact h.1
  have hhi : ⌊y⌋ ≤ K := by
    have : (⌊y⌋ : ℚ) ≤ K := le_trans h1 h.2
    exact_mod_cast this
  have hup : (1 : ℚ) / 2 ≤ y - ⌊y⌋ → ⌊y⌋ + 1 ≤ K := by
    intro hfr
    have : (⌊y⌋ : ℚ) < K := by linarith [h.2]
    have : ⌊y⌋ < K := by exact_mod_cast this
    omega
  have key : -K ≤ roundHalfEven y ∧ roundHalfEven y ≤ K := by
    unfold roundHalfEven
    split_ifs with ha hb hc
    · exact ⟨hlo, hhi⟩
    · exact ⟨by omega, hup (le_of_lt hb)⟩
    · exact ⟨hlo, hhi⟩
    · exact ⟨by omega, hup (not_lt.mp ha)⟩
  rw [abs_le]
  constructor
  · have := key.1
    exact_mod_cast this
  · exact_mod_cast key.2

theorem binary32Exponent_spec (x : ℚ) (hx : (2 : ℚ) ^ (-126 : ℤ) ≤ |x|) :
    -126 ≤ binary32Exponent x ∧ binary32Exponent x = Int.log 2 |x| ∧
      (2 : ℚ) ^ binary32Exponent x ≤ |x| ∧ |x| < (2 : ℚ) ^ (binary32Exponent x + 1) := by
  have hpos : (0 : ℚ) < |x| := lt_of_lt_of_le (by positivity) hx
  have hlog : -126 ≤ Int.log 2 |x| := by
    rw [← Int.zpow_le_iff_le_log (by norm_num) hpos]
    exact_mod_cast hx
  have he : binary32Exponent x = Int.log 2 |x| := max_eq_left hlog
  refine ⟨by rw [he]; exact hlog, he, ?_, ?_⟩
  · rw [he]
    exact_mod_cast Int.zpow_log_le_self (by norm_num : 1 < 2) hpos
  · rw [he]
    exact_mod_cast Int.lt_zpow_succ_log_self (by norm_num : 1 < 2) |x|

theorem binary32Exponent_eq (x : ℚ) (e : ℤ) (h1 : (2 : ℚ) ^ e ≤ |x|) (h2 : |x| < (2 : ℚ) ^ (e + 1))
    (h3 : -126 ≤ e) : binary32Exponent x = e := by
  have hpos : (0 : ℚ) < |x| := lt_of_lt_of_le (by positivity) h1
  have hle : e ≤ Int.log 2 |x| := by
    rw [← Int.zpow_le_iff_le_log (by norm_num) hpos]
    exact_mod_cast h1
  have hlt : Int.log 2 |x| < e + 1 := by
    rw [← Int.lt_zpow_iff_log_lt (by norm_num) hpos]
    exact_mod_cast h2
  unfold binary32Exponent
  rw [max_eq_left (by omega)]
  omega

theorem roundBinary32_eq_of (x : ℚ) (e n : ℤ) (h1 : (2 : ℚ) ^ e ≤ |x|)
    (h2 : |x| < (2 : ℚ) ^ (e + 1)) (h3 : -126 ≤ e)
    (hn : roundHalfEven (x / 2 ^ (e - 23)) = n)
    (hfin : |(n : ℚ) * 2 ^ (e - 23)| ≤ FLT_MAX) :
    roundBinary32 x = some ((n : ℚ) * 2 ^ (e - 23)) := by
  unfold roundBinary32
  simp only [binary32Exponent_eq x e h1 h2 h3, hn]
  rw [if_pos hfin]

theorem FLT_MAX_eq : FLT_MAX = (2 ^ 24 - 1) * (2 : ℚ) ^ (104 : ℤ) := by
  norm_num [FLT_MAX]

theorem FLT_MAX_lt : FLT_MAX < (2 : ℚ) ^ (128 : ℤ) := by
  norm_num [FLT_MAX]

theorem le_FLT_MAX : (2 : ℚ) ^ (127 : ℤ) ≤ FLT_MAX := by
  norm_num [FLT_MAX]

/-- In the normal finite range binary32 rounding returns a value within relative error
`2^-24` of the exact one. -/
theorem roundBinary32_spec (x : ℚ) (hlo : (2 : ℚ) ^ (-126 : ℤ) ≤ |x|) (hhi : |x| ≤ FLT_MAX) :
    ∃ r : ℚ, roundBinary32 x = some r ∧ |r - x| ≤ 2 ^ (-24 : ℤ) * |x| := by
  obtain ⟨he126, helog, hle, hlt⟩ := binary32Exponent_spec x hlo
  have hpos : (0 : ℚ) < |x| := lt_of_lt_of_le (by positivity) hlo
  have hq : (0 : ℚ) < 2 ^ (binary32Exponent x - 23) := by positivity
  have he127 : binary32Exponent x ≤ 127 := by
    have : Int.log 2 |x| < 128 := by
      rw [← Int.lt_zpow_iff_log_lt (by norm_num) hpos]
      exact_mod_cast lt_of_le_of_lt hhi FLT_MAX_lt
    omega
  have hsplit : ∀ a : ℤ, (2 : ℚ) ^ a = 2 ^ (a - 23) * 2 ^ (23 : ℤ) := by
    intro a
    rw [← zpow_add₀ (by norm_num : (2 : ℚ) ≠ 0)]
    congr 1
    ring
  -- the rounded value stays finite
  have hfin : |(roundHalfEven (x / 2 ^ (binary32Exponent x - 23)) : ℚ) *
      2 ^ (binary32Exponent x - 23)| ≤ FLT_MAX := by
    rw [abs_mul, abs_of_pos hq]
    by_cases h127 : binary32Exponent x = 127
    · have hK : |x / 2 ^ (binary32Exponent x - 23)| ≤ ((2 ^ 24 - 1 : ℤ) : ℚ) := by
        rw [abs_div, abs_of_pos hq, div_le_iff₀ hq, h127]
        push_cast
        exact le_trans hhi (by norm_num [FLT_MAX])
      have hr := abs_roundHalfEven_le _ _ hK
      calc |(roundHalfEven (x / 2 ^ (binary32Exponent x - 23)) : ℚ)| *
            2 ^ (binary32Exponent x - 23)
          ≤ ((2 ^ 24 - 1 : ℤ) : ℚ) * 2 ^ (binary32Exponent x - 23) :=
            mul_le_mul_of_nonneg_right hr hq.le
        _ = FLT_MAX := by rw [h127]; norm_num [FLT_MAX]
    · have hK : |x / 2 ^ (binary32Exponent x - 23)| ≤ ((2 ^ 24 : ℤ) : ℚ) := by
        rw [abs_div, abs_of_pos hq, div_le_iff₀ hq]
        push_cast
        have h := hsplit (binary32Exponent x + 1)
        have h' : (2 : ℚ) ^ (binary32Exponent x + 1 - 23) =
            2 ^ (binary32Exponent x - 23) * 2 := by
          rw [show binary32Exponent x + 1 - 23 = binary32Exponent x - 23 + 1 by ring,
            zpow_add₀ (by norm_num : (2 : ℚ) ≠ 0), zpow_one]
        rw [h'] at h
        have : |x| < 2 ^ (binary32Exponent x - 23) * 2 * 2 ^ (23 : ℤ) := by
          rw [← h]; exact hlt
        norm_num at this ⊢
        linarith
      have hr := abs_roundHalfEven_le _ _ hK
      have hmono : (2 : ℚ) ^ (binary32Exponent x + 1) ≤ 2 ^ (127 : ℤ) :=
        zpow_le_zpow_right₀ (by norm_num) (by omega)
      calc |(roundHalfEven (x / 2 ^ (binary32Exponent x - 23)) : ℚ)| *
            2 ^ (binary32Exponent x - 23)
          ≤ ((2 ^ 24 : ℤ) : ℚ) * 2 ^ (binary32Exponent x - 23) :=
            mul_le_mul_of_nonneg_right hr hq.le
        _ = 2 ^ (binary32Exponent x + 1) := by
            rw [hsplit (binary32Exponent x + 1),
              show binary32Exponent x + 1 - 23 = binary32Exponent x - 23 + 1 by ring,
              zpow_add₀ (by norm_num : (2 : ℚ) ≠ 0), zpow_one]
            push_cast
            norm_num
            ring
        _ ≤ 2 ^ (127 : ℤ) := hmono
        _ ≤ FLT_MAX := le_FLT_MAX
  refine ⟨(roundHalfEven (x / 2 ^ (binary32Exponent x - 23)) : ℚ) *
      2 ^ (binary32Exponent x - 23), ?_, ?_⟩
  · unfold roundBinary32
    simp only []
    rw [if_pos hfin]
  · have herr := abs_roundHalfEven_sub_le (x / 2 ^ (binary32Exponent x - 23))
    have hfact : (roundHalfEven (x / 2 ^ (binary32Exponent x - 23)) : ℚ) *
        2 ^ (binary32Exponent x - 23) - x =
        ((roundHalfEven (x / 2 ^ (binary32Exponent x - 23)) : ℚ) -
          x / 2 ^ (binary32Exponent x - 23)) * 2 ^ (binary32Exponent x - 23) := by
      field_simp
    rw [hfact, abs_mul, abs_of_pos hq]
    have hq2 : (2 : ℚ) ^ (binary32Exponent x - 23) * 2 ^ (23 : ℤ) ≤ |x| := by
      rw [← hsplit]; exact hle
    calc |(roundHalfEven (x / 2 ^ (binary32Exponent x - 23)) : ℚ) -
          x / 2 ^ (binary32Exponent x - 23)| * 2 ^ (binary32Exponent x - 23)
        ≤ 1 / 2 * 2 ^ (binary32Exponent x - 23) := mul_le_mul_of_nonneg_right herr hq.le
      _ = 2 ^ (-24 : ℤ) * (2 ^ (binary32Exponent x - 23) * 2 ^ (23 : ℤ)) := by
          norm_num
          ring
      _ ≤ 2 ^ (-24 : ℤ) * |x| := mul_le_mul_of_nonneg_left hq2 (by positivity)

theorem roundBinary32_five_halves : roundBinary32 (5 / 2) = some (5 / 2) := by
  have h := roundBinary32_eq_of (5 / 2) 1 10485760 (by norm_num [abs_le, abs_lt, le_abs]) (by norm_num [abs_le, abs_lt, le_abs])
    (by norm_num)
    (by
      have : ((5 : ℚ) / 2) / 2 ^ ((1 : ℤ) - 23) = ((10485760 : ℤ) : ℚ) := by norm_num
      rw [this, roundHalfEven_intCast])
    (by norm_num [FLT_MAX, abs_le, abs_lt, le_abs])
  rw [h]
  norm_num

theorem roundBinary32_neg_five_halves : roundBinary32 (-(5 / 2)) = some (-(5 / 2)) := by
  have h := roundBinary32_eq_of (-(5 / 2)) 1 (-10485760) (by norm_num [abs_le, abs_lt, le_abs])
    (by norm_num [abs_le, abs_lt, le_abs]) (by norm_num)
    (by
      have : (-((5 : ℚ) / 2)) / 2 ^ ((1 : ℤ) - 23) = ((-10485760 : ℤ) : ℚ) := by norm_num
      rw [this, roundHalfEven_intCast])
    (by norm_num [FLT_MAX, abs_le, abs_lt, le_abs])
  rw [h]
  norm_num

theorem roundBinary32_five : roundBinary32 5 = some 5 := by
  have h := roundBinary32_eq_of 5 2 10485760 (by norm_num [abs_le, abs_lt, le_abs]) (by norm_num [abs_le, abs_lt, le_abs])
    (by norm_num)
    (by
      have : (5 : ℚ) / 2 ^ ((2 : ℤ) - 23) = ((10485760 : ℤ) : ℚ) := by norm_num
      rw [this, roundHalfEven_intCast])
    (by norm_num [FLT_MAX, abs_le, abs_lt, le_abs])
  rw [h]
  norm_num

/-- The exact product of 2.5 and the binary32 value nearest 0.3 is a tie between two binary32
values and rounds to 0.75. -/
theorem roundBinary32_tie : roundBinary32 (25165825 / 33554432) = some (3 / 4) := by
  have h := roundBinary32_eq_of (25165825 / 33554432) (-1) 12582912 (by norm_num [abs_le, abs_lt, le_abs])
    (by norm_num [abs_le, abs_lt, le_abs]) (by norm_num)
    (by
      have : ((25165825 : ℚ) / 33554432) / 2 ^ ((-1 : ℤ) - 23) =
          ((12582912 : ℤ) : ℚ) + 1 / 2 := by norm_num
      rw [this, roundHalfEven_tie_even _ (by norm_num)])
    (by norm_num [FLT_MAX, abs_le, abs_lt, le_abs])
  rw [h]
  norm_num

/-- A binary32 value above 1 in absolute value is at least `1 + 2^-23`. -/
theorem one_add_ulp_le_of_binary32 (d : ℚ) (hd : roundBinary32 d = some d) (h1 : 1 < |d|) :
    1 + (2 : ℚ) ^ (-23 : ℤ) ≤ |d| := by
  by_contra hlt
  rw [not_le] at hlt
  have he : binary32Exponent d = 0 :=
    binary32Exponent_eq d 0 (by norm_num; exact h1.le)
      (by norm_num at hlt ⊢; linarith) (by norm_num)
  unfold roundBinary32 at hd
  simp only [he] at hd
  split_ifs at hd with hf
  have hval : (roundHalfEven (d / 2 ^ ((0 : ℤ) - 23)) : ℚ) * 2 ^ ((0 : ℤ) - 23) = d :=
    Option.some.inj hd
  obtain ⟨n, hn⟩ : ∃ n : ℤ, (n : ℚ) * 2 ^ ((0 : ℤ) - 23) = d := ⟨_, hval⟩
  have hpow : (2 : ℚ) ^ ((0 : ℤ) - 23) = 1 / 8388608 := by norm_num
  have habs : |(n : ℚ)| = |d| * 8388608 := by
    rw [← hn, hpow, abs_mul, abs_of_pos (by norm_num : (0 : ℚ) < 1 / 8388608)]
    ring
  have hlo : (8388608 : ℚ) < |(n : ℚ)| := by
    rw [habs]; linarith
  have hhi : |(n : ℚ)| < 8388609 := by
    rw [habs]
    norm_num at hlt
    linarith
  rw [← Int.cast_abs] at hlo hhi
  have hlo' : (8388608 : ℤ) < |n| := by exact_mod_cast hlo
  have hhi' : |n| < (8388609 : ℤ) := by exact_mod_cast hhi
  omega

/-! ## The controller with the binary32 product -/

/-- One tick of the binary32 model written out. -/
theorem modifyDemandsF32_eq {P : Type} (ops : PidOps P) (c : AltitudeHoldPid P)
    (st : state_t) (dem : demands_t) :
    c.modifyDemandsF32 ops st dem =
      (if |dem.throttle| < STICK_DEADBAND
        then some (ops.compute c._posPid c._altitudeTarget (st.location 2)).1
        else roundBinary32 (PILOT_VELZ_MAX * dem.throttle)).map fun tv =>
        ({ _inBandPrev := decide (|dem.throttle| < STICK_DEADBAND)
           didReset := decide (|dem.throttle| < STICK_DEADBAND) && !c._inBandPrev
           _posPid := (ops.compute c._posPid c._altitudeTarget (st.location 2)).2
           _velPid := (ops.compute
              (if (decide (|dem.throttle| < STICK_DEADBAND) && !c._inBandPrev) = true
                then ops.reset c._velPid else c._velPid) tv (st.inertialVel 2)).2
           _altitudeTarget :=
              if (decide (|dem.throttle| < STICK_DEADBAND) && !c._inBandPrev) = true
                then st.location 2 else c._altitudeTarget },
         st,
         { dem with throttle := (ops.compute
              (if (decide (|dem.throttle| < STICK_DEADBAND) && !c._inBandPrev) = true
                then ops.reset c._velPid else c._velPid) tv (st.inertialVel 2)).1 }) := by
  unfold AltitudeHoldPid.modifyDemandsF32 AltitudeHoldPid.computeVelF32
  by_cases hb : |dem.throttle| < STICK_DEADBAND <;> cases hp : c._inBandPrev <;>
    simp [hb, hp] <;> cases roundBinary32 (PILOT_VELZ_MAX * dem.throttle) <;> simp

/-- The binary32 model agrees with the exact one on every in-band tick and whenever the product
`PILOT_VELZ_MAX * d` is a binary32 value. -/
theorem modifyDemandsF32_eq_some_modifyDemands {P : Type} (ops : PidOps P)
    (c : AltitudeHoldPid P) (st : state_t) (dem : demands_t)
    (h : |dem.throttle| < STICK_DEADBAND ∨
      roundBinary32 (PILOT_VELZ_MAX * dem.throttle) = some (PILOT_VELZ_MAX * dem.throttle)) :
    c.modifyDemandsF32 ops st dem = some (c.modifyDemands ops st dem) := by
  rw [modifyDemandsF32_eq, modifyDemands_eq]
  by_cases hb : |dem.throttle| < STICK_DEADBAND
  · simp [hb]
  · rcases h with h | h
    · exact absurd h hb
    · simp [hb, h]

theorem modifyDemandsF32_eq_none {P : Type} (ops : PidOps P)
    (c : AltitudeHoldPid P) (st : state_t) (dem : demands_t)
    (hb : ¬ |dem.throttle| < STICK_DEADBAND)
    (h : roundBinary32 (PILOT_VELZ_MAX * dem.throttle) = none) :
    c.modifyDemandsF32 ops st dem = none := by
  rw [modifyDemandsF32_eq]
  simp [hb, h]

/-- Calls made on `_velPid` during an out-of-band tick of the binary32 model. -/
theorem traced_velPid_log_F32 {P : Type} (ops : PidOps P)
    (c : AltitudeHoldPid (P × List PidCall)) (st : state_t) (dem : demands_t) (tv : ℚ)
    (hb : ¬ |dem.throttle| < STICK_DEADBAND)
    (h : roundBinary32 (PILOT_VELZ_MAX * dem.throttle) = some tv) :
    (c.modifyDemandsF32 ops.traced st dem).map (fun r => r.1._velPid.2) =
      some (c._velPid.2 ++ [PidCall.compute tv (st.inertialVel 2)]) := by
  rw [modifyDemandsF32_eq]
  simp [hb, h, PidOps.traced]

/-! ## C1 -/

/-- C1: on a tick whose throttle demand is inside the deadband while the previous tick's demand
was not, `modifyDemands` leaves `_altitudeTarget` equal to that tick's `state.location[2]`. -/
theorem C1_entry_tick_captures_altitude {P : Type} (ops : PidOps P) (c : AltitudeHoldPid P)
    (st : state_t) (dem : demands_t)
    (hin : |dem.throttle| < STICK_DEADBAND) (hprev : c._inBandPrev = false) :
    (c.modifyDemands ops st dem).1._altitudeTarget = st.location 2 := by
  rw [modifyDemands_altitudeTarget, if_pos ⟨hin, hprev⟩]

/-- C1 witness: from a freshly constructed controller, throttle demands 0.5, 0.5, 0.05 at
altitudes 10, 12, 15 leave the altitude target at 15 after the third tick. -/
theorem C1_entry_tick_captures_altitude_witness :
    |(mkTick 0.05 15 0).2.throttle| < STICK_DEADBAND ∧
    ((AltitudeHoldPid.new Pid.ops 0.1 1 0 0).run Pid.ops
      [mkTick 0.5 10 0, mkTick 0.5 12 0])._inBandPrev = false ∧
    ((AltitudeHoldPid.new Pid.ops 0.1 1 0 0).run Pid.ops
      [mkTick 0.5 10 0, mkTick 0.5 12 0, mkTick 0.05 15 0])._altitudeTarget = 15 := by
  have hin : |(mkTick 0.05 15 0).2.throttle| < STICK_DEADBAND := by
    norm_num [mkTick, STICK_DEADBAND, abs_lt]
  have hprev : ((AltitudeHoldPid.new Pid.ops 0.1 1 0 0).run Pid.ops
      [mkTick 0.5 10 0, mkTick 0.5 12 0])._inBandPrev = false := by
    simp only [AltitudeHoldPid.run, modifyDemands_inBandPrev]
    norm_num [mkTick, STICK_DEADBAND, abs_lt]
  refine ⟨hin, hprev, ?_⟩
  have h := C1_entry_tick_captures_altitude Pid.ops _ (mkTick 0.05 15 0).1 _ hin hprev
  rw [← run_concat] at h
  simpa [mkTick] using h

/-! ## C2 -/

/-- C2: in one tick `_velPid.reset()` is called exactly once when the tick enters the deadband
(demand in band, `_inBandPrev` false) and not at all in every other tick; over any finite
sequence of ticks the number of resets equals the number of outside-to-inside crossings.  An
oscillating sequence of seven demands with three entries gives three resets. -/
theorem C2_velPid_reset_once_per_entry {P : Type} (ops : PidOps P) :
    (∀ (c : AltitudeHoldPid (P × List PidCall)) (st : state_t) (dem : demands_t),
      resetCount (c.modifyDemands ops.traced st dem).1._velPid.2 =
        resetCount c._velPid.2 +
          (if |dem.throttle| < STICK_DEADBAND ∧ c._inBandPrev = false then 1 else 0)) ∧
    (∀ (c : AltitudeHoldPid (P × List PidCall)) (ticks : List (state_t × demands_t)),
      resetCount (c.run ops.traced ticks)._velPid.2 =
        resetCount c._velPid.2 + crossings c._inBandPrev (ticks.map fun t => t.2.throttle)) ∧
    (∀ Kp_pos Kp_vel Ki_vel Kd_vel : ℚ,
      resetCount ((AltitudeHoldPid.new ops.traced Kp_pos Kp_vel Ki_vel Kd_vel).run ops.traced
        [mkTick 0.5 1 0, mkTick 0 2 0, mkTick (-0.5) 3 0, mkTick 0.05 4 0, mkTick 0.05 5 0,
          mkTick 0.1 6 0, mkTick (-0.09) 7 0])._velPid.2 = 3) := by
  refine ⟨traced_velPid_resetCount ops, traced_run_resetCount ops, ?_⟩
  intro Kp_pos Kp_vel Ki_vel Kd_vel
  rw [traced_run_resetCount]
  simp only [AltitudeHoldPid.new, PidOps.traced, List.map, mkTick, crossings, resetCount,
    STICK_DEADBAND]
  norm_num [abs_lt]

/-! ## C3 -/

/-- C3 as stated fails: on a freshly constructed controller a single tick with throttle demand
0 (inside the deadband) at altitude 5 changes `_altitudeTarget` from 0 to 5. -/
theorem C3_counterexample_fresh_inside :
    (∀ t ∈ [mkTick 0 5 0], |t.2.throttle| < STICK_DEADBAND) ∧
    (AltitudeHoldPid.new Pid.ops 0.1 1 0 0)._altitudeTarget = 0 ∧
    ((AltitudeHoldPid.new Pid.ops 0.1 1 0 0).run Pid.ops [mkTick 0 5 0])._altitudeTarget = 5 ∧
    ((AltitudeHoldPid.new Pid.ops 0.1 1 0 0).run Pid.ops [mkTick 0 5 0])._altitudeTarget ≠
      (AltitudeHoldPid.new Pid.ops 0.1 1 0 0)._altitudeTarget := by
  have h5 : ((AltitudeHoldPid.new Pid.ops 0.1 1 0 0).run Pid.ops
      [mkTick 0 5 0])._altitudeTarget = 5 := by
    simp only [AltitudeHoldPid.run, modifyDemands_altitudeTarget]
    norm_num [mkTick, STICK_DEADBAND, AltitudeHoldPid.new]
  refine ⟨?_, rfl, h5, ?_⟩
  · intro t ht
    rw [List.mem_singleton.mp ht]
    norm_num [mkTick, STICK_DEADBAND]
  · rw [h5]
    norm_num [AltitudeHoldPid.new]

/-- C3 (amended): over a sequence of ticks whose throttle demands are all outside the deadband,
or all inside it with the controller already in band before the first tick
(`_inBandPrev = true`), `_altitudeTarget` after each tick equals its value before the first
tick.  When all demands are inside the deadband and `_inBandPrev` is false before the first
tick (as on a fresh controller), the first tick is an entry: after every tick the target is
the first tick's altitude. -/
theorem C3_target_unchanged_without_entry {P : Type} (ops : PidOps P) (c : AltitudeHoldPid P) :
    (∀ ticks : List (state_t × demands_t),
      ((∀ t ∈ ticks, ¬ |t.2.throttle| < STICK_DEADBAND) ∨
        (c._inBandPrev = true ∧ ∀ t ∈ ticks, |t.2.throttle| < STICK_DEADBAND)) →
      ∀ n, (c.run ops (ticks.take n))._altitudeTarget = c._altitudeTarget) ∧
    (∀ (t : state_t × demands_t) (ts : List (state_t × demands_t)),
      c._inBandPrev = false → (∀ u ∈ t :: ts, |u.2.throttle| < STICK_DEADBAND) →
      ∀ n, (c.run ops ((t :: ts).take (n + 1)))._altitudeTarget = t.1.location 2) := by
  constructor
  · intro ticks h n
    rcases h with h | ⟨hprev, h⟩
    · exact run_altitudeTarget_outside ops c _ (fun t ht => h t (List.mem_of_mem_take ht))
    · exact run_altitudeTarget_inside ops c _ hprev (fun t ht => h t (List.mem_of_mem_take ht))
  · intro t ts hprev h n
    have ht := h t (List.mem_cons_self _ _)
    rw [List.take_succ_cons, run_cons, run_altitudeTarget_inside ops _ _
      (by rw [modifyDemands_inBandPrev]; exact decide_eq_true ht)
      (fun u hu => h u (List.mem_cons_of_mem _ (List.mem_of_mem_take hu))),
      modifyDemands_altitudeTarget, if_pos ⟨ht, hprev⟩]

/-- C3 witness: on a fresh controller two ticks with demands 0.5 and -0.7 (both outside the
deadband) leave the target at 0, and two ticks with demands 0.05 and 0 at altitudes 7 and 9
leave it at 7. -/
theorem C3_target_unchanged_without_entry_witness :
    ((AltitudeHoldPid.new Pid.ops 0.1 1 0 0).run Pid.ops
      ([mkTick 0.5 3 0, mkTick (-0.7) 4 0].take 2))._altitudeTarget = 0 ∧
    ((AltitudeHoldPid.new Pid.ops 0.1 1 0 0).run Pid.ops
      ([mkTick 0.05 7 0, mkTick 0 9 0].take (1 + 1)))._altitudeTarget = 7 := by
  constructor
  · exact (C3_target_unchanged_without_entry Pid.ops (AltitudeHoldPid.new Pid.ops 0.1 1 0 0)).1
      [mkTick 0.5 3 0, mkTick (-0.7) 4 0]
      (Or.inl (by
        intro t ht
        simp only [List.mem_cons, List.mem_singleton, List.not_mem_nil, or_false] at ht
        rcases ht with rfl | rfl <;> norm_num [mkTick, STICK_DEADBAND, abs_lt])) 2
  · have h := (C3_target_unchanged_without_entry Pid.ops
      (AltitudeHoldPid.new Pid.ops 0.1 1 0 0)).2 (mkTick 0.05 7 0) [mkTick 0 9 0] rfl
      (by
        intro t ht
        simp only [List.mem_cons, List.mem_singleton, List.not_mem_nil, or_false] at ht
        rcases ht with rfl | rfl <;> norm_num [mkTick, STICK_DEADBAND, abs_lt]) 1
    simpa [mkTick] using h

/-! ## C4 -/

/-- C4: after any finite sequence of ticks applied to a freshly constructed controller,
`_altitudeTarget` is `state.location[2]` of the most recent tick that was a deadband entry,
and 0 if no tick was a deadband entry. -/
theorem C4_target_is_altitude_of_last_entry {P : Type} (ops : PidOps P)
    (Kp_pos Kp_vel Ki_vel Kd_vel : ℚ) (ticks : List (state_t × demands_t)) :
    (∀ i, isEntryAt ticks i → (∀ j, i < j → ¬ isEntryAt ticks j) →
      ∃ t, ticks[i]? = some t ∧
        ((AltitudeHoldPid.new ops Kp_pos Kp_vel Ki_vel Kd_vel).run ops ticks)._altitudeTarget =
          t.1.location 2) ∧
    ((∀ i, ¬ isEntryAt ticks i) →
      ((AltitudeHoldPid.new ops Kp_pos Kp_vel Ki_vel Kd_vel).run ops ticks)._altitudeTarget
        = 0) :=
  run_new_altitudeTarget ops Kp_pos Kp_vel Ki_vel Kd_vel ticks

/-- C4 witness: with demands 0.5, 0.05, 0.5, 0, 0.01 at altitudes 1 to 5 the last entry is the
fourth tick and the target is 4; with demands 0.5, -0.7 there is no entry and the target
is 0. -/
theorem C4_target_is_altitude_of_last_entry_witness :
    isEntryAt [mkTick 0.5 1 0, mkTick 0.05 2 0, mkTick 0.5 3 0, mkTick 0 4 0, mkTick 0.01 5 0] 3 ∧
    (∀ j, 3 < j → ¬ isEntryAt
      [mkTick 0.5 1 0, mkTick 0.05 2 0, mkTick 0.5 3 0, mkTick 0 4 0, mkTick 0.01 5 0] j) ∧
    ((AltitudeHoldPid.new Pid.ops 0.1 1 0 0).run Pid.ops
      [mkTick 0.5 1 0, mkTick 0.05 2 0, mkTick 0.5 3 0, mkTick 0 4 0,
        mkTick 0.01 5 0])._altitudeTarget = 4 ∧
    (∀ i, ¬ isEntryAt [mkTick 0.5 1 0, mkTick (-0.7) 2 0] i) ∧
    ((AltitudeHoldPid.new Pid.ops 0.1 1 0 0).run Pid.ops
      [mkTick 0.5 1 0, mkTick (-0.7) 2 0])._altitudeTarget = 0 := by
  have h3 : isEntryAt
      [mkTick 0.5 1 0, mkTick 0.05 2 0, mkTick 0.5 3 0, mkTick 0 4 0, mkTick 0.01 5 0] 3 :=
    ⟨mkTick 0 4 0, rfl, by norm_num [mkTick, STICK_DEADBAND],
      Or.inr ⟨mkTick 0.5 3 0, rfl, by norm_num [mkTick, STICK_DEADBAND, abs_lt]⟩⟩
  have hlast : ∀ j, 3 < j → ¬ isEntryAt
      [mkTick 0.5 1 0, mkTick 0.05 2 0, mkTick 0.5 3 0, mkTick 0 4 0, mkTick 0.01 5 0] j := by
    intro j hj hent
    have hlt := isEntryAt_lt_length hent
    have h4 : j = 4 := by
      simp only [List.length_cons, List.length_nil] at hlt
      omega
    subst h4
    obtain ⟨_, _, _, hprev⟩ := hent
    rcases hprev with h0 | ⟨u, hu, hout⟩
    · omega
    · have hu' : u = mkTick 0 4 0 := (Option.some.inj hu).symm
      subst hu'
      exact hout (by norm_num [mkTick, STICK_DEADBAND])
  have hnone : ∀ i, ¬ isEntryAt [mkTick 0.5 1 0, mkTick (-0.7) 2 0] i := by
    intro i hent
    have hlt := isEntryAt_lt_length hent
    simp only [List.length_cons, List.length_nil] at hlt
    obtain ⟨t, ht, hin, _⟩ := hent
    have hcases : i = 0 ∨ i = 1 := by omega
    rcases hcases with rfl | rfl
    · have ht' : t = mkTick 0.5 1 0 := (Option.some.inj ht).symm
      subst ht'
      norm_num [mkTick, STICK_DEADBAND, abs_lt] at hin
    · have ht' : t = mkTick (-0.7) 2 0 := (Option.some.inj ht).symm
      subst ht'
      norm_num [mkTick, STICK_DEADBAND, abs_lt] at hin
  refine ⟨h3, hlast, ?_, hnone, ?_⟩
  · obtain ⟨t, ht, htarget⟩ :=
      (C4_target_is_altitude_of_last_entry Pid.ops 0.1 1 0 0 _).1 3 h3 hlast
    have ht' : t = mkTick 0 4 0 := (Option.some.inj ht).symm
    rw [htarget, ht']
    simp [mkTick]
  · exact (C4_target_is_altitude_of_last_entry Pid.ops 0.1 1 0 0 _).2 hnone

/-! ## C5 -/

/-- C5: on a tick that is not a deadband entry (the demand is out of band, or it is in band and
`_inBandPrev` was already true) `modifyDemands` leaves `_altitudeTarget` as it was. -/
theorem C5_target_kept_when_no_entry {P : Type} (ops : PidOps P) (c : AltitudeHoldPid P)
    (st : state_t) (dem : demands_t)
    (h : ¬ |dem.throttle| < STICK_DEADBAND ∨
      (|dem.throttle| < STICK_DEADBAND ∧ c._inBandPrev = true)) :
    (c.modifyDemands ops st dem).1._altitudeTarget = c._altitudeTarget := by
  rw [modifyDemands_altitudeTarget, if_neg]
  rintro ⟨hin, hprev⟩
  rcases h with h | ⟨_, h⟩
  · exact h hin
  · rw [hprev] at h
    exact Bool.noConfusion h

/-- C5 witness: a controller in band holding target 42 keeps it on an in-band tick at altitude
50 and on an out-of-band tick at altitude 60. -/
theorem C5_target_kept_when_no_entry_witness :
    ((AltitudeHoldPid.mk true false (Pid.init 0.1 0 0) (Pid.init 1 0 0) 42).modifyDemands Pid.ops
      (mkTick 0.05 50 0).1 (mkTick 0.05 50 0).2).1._altitudeTarget = 42 ∧
    ((AltitudeHoldPid.mk true false (Pid.init 0.1 0 0) (Pid.init 1 0 0) 42).modifyDemands Pid.ops
      (mkTick 0.5 60 0).1 (mkTick 0.5 60 0).2).1._altitudeTarget = 42 :=
  ⟨C5_target_kept_when_no_entry Pid.ops _ _ _
      (Or.inr ⟨by norm_num [mkTick, STICK_DEADBAND, abs_lt], rfl⟩),
    C5_target_kept_when_no_entry Pid.ops _ _ _
      (Or.inl (by norm_num [mkTick, STICK_DEADBAND, abs_lt]))⟩

/-! ## C6 -/

/-- C7: on a tick whose throttle demand is inside the deadband, `_posPid.compute` is called
with the altitude target held before the tick and the tick's altitude, and its output is the
target velocity passed to `_velPid.compute`; on an entry tick the altitude captured by that
tick is the set-point of the outer loop only on the next tick. -/
theorem C7_inBand_target_velocity_uses_previous_target {P : Type} (ops : PidOps P)
    (c : AltitudeHoldPid (P × List PidCall)) (st : state_t) (dem : demands_t)
    (hin : |dem.throttle| < STICK_DEADBAND) :
    (c.modifyDemands ops.traced st dem).1._posPid.2 =
      c._posPid.2 ++ [PidCall.compute c._altitudeTarget (st.location 2)] ∧
    (c.modifyDemands ops.traced st dem).1._velPid.2 =
      c._velPid.2 ++ (if c._inBandPrev = false then [PidCall.reset] else []) ++
        [PidCall.compute (ops.compute c._posPid.1 c._altitudeTarget (st.location 2)).1
          (st.inertialVel 2)] ∧
    (c._inBandPrev = false → ∀ (st2 : state_t) (dem2 : demands_t),
      ((c.modifyDemands ops.traced st dem).1.modifyDemands ops.traced st2 dem2).1._posPid.2 =
        c._posPid.2 ++ [PidCall.compute c._altitudeTarget (st.location 2),
          PidCall.compute (st.location 2) (st2.location 2)]) := by
  refine ⟨traced_posPid_log ops c st dem, ?_, ?_⟩
  · rw [traced_velPid_log]
    simp only [hin, if_true, true_and]
  · intro hprev st2 dem2
    rw [traced_posPid_log, traced_posPid_log, modifyDemands_altitudeTarget, if_pos ⟨hin, hprev⟩]
    simp

/-- C7 witness: a fresh controller with position gain 0.1 entering the deadband at altitude 10
calls `_posPid.compute(0, 10)` and feeds -1 to the velocity PID; the next tick at altitude 11
calls `_posPid.compute(10, 11)`. -/
theorem C7_inBand_target_velocity_uses_previous_target_witness :
    ((AltitudeHoldPid.new Pid.ops.traced 0.1 1 0 0).modifyDemands Pid.ops.traced
      (mkTick 0 10 0).1 (mkTick 0 10 0).2).1._posPid.2 = [PidCall.compute 0 10] ∧
    ((AltitudeHoldPid.new Pid.ops.traced 0.1 1 0 0).modifyDemands Pid.ops.traced
      (mkTick 0 10 0).1 (mkTick 0 10 0).2).1._velPid.2 =
        [PidCall.reset, PidCall.compute (-1) 0] ∧
    (((AltitudeHoldPid.new Pid.ops.traced 0.1 1 0 0).modifyDemands Pid.ops.traced
      (mkTick 0 10 0).1 (mkTick 0 10 0).2).1.modifyDemands Pid.ops.traced
      (mkTick 0 11 0).1 (mkTick 0 11 0).2).1._posPid.2 =
        [PidCall.compute 0 10, PidCall.compute 10 11] := by
  have h := C7_inBand_target_velocity_uses_previous_target Pid.ops
    (AltitudeHoldPid.new Pid.ops.traced 0.1 1 0 0) (mkTick 0 10 0).1 (mkTick 0 10 0).2
    (by norm_num [mkTick, STICK_DEADBAND])
  refine ⟨?_, ?_, ?_⟩
  · rw [h.1]
    simp [AltitudeHoldPid.new, PidOps.traced, mkTick]
  · rw [h.2.1]
    norm_num [AltitudeHoldPid.new, PidOps.traced, mkTick, Pid.ops, Pid.init, Pid.compute]
  · rw [h.2.2 rfl]
    simp [AltitudeHoldPid.new, PidOps.traced, mkTick]

/-! ## C8 -/

/-- C8 as stated fails: the product on line 64 is a `float` product.  For the throttle demand
`0.3f` (the binary32 value nearest 0.3, outside the deadband) the exact product with 2.5 is
25165825/33554432, a tie between two binary32 values, and the target velocity passed to the
velocity PID is its rounding 0.75, which is not `2.5 * d`. -/
theorem C8_counterexample_product_is_rounded :
    roundBinary32 (3 / 10) = some (10066330 / 33554432) ∧
    STICK_DEADBAND ≤ |(10066330 / 33554432 : ℚ)| ∧
    ((AltitudeHoldPid.new Pid.ops.traced 0.1 1 0 0).modifyDemandsF32 Pid.ops.traced
      (mkTick (10066330 / 33554432) 10 0).1 (mkTick (10066330 / 33554432) 10 0).2).map
        (fun r => r.1._velPid.2) = some [PidCall.compute (3 / 4) 0] ∧
    PILOT_VELZ_MAX * (10066330 / 33554432) = 25165825 / 33554432 ∧
    (3 / 4 : ℚ) ≠ PILOT_VELZ_MAX * (10066330 / 33554432) := by
  have hprod : PILOT_VELZ_MAX * (10066330 / 33554432) = 25165825 / 33554432 := by
    norm_num [PILOT_VELZ_MAX]
  have hout : STICK_DEADBAND ≤ |(10066330 / 33554432 : ℚ)| := by
    norm_num [STICK_DEADBAND, abs_le, abs_lt, le_abs]
  refine ⟨?_, hout, ?_, hprod, ?_⟩
  · have hfl : ⌊((3 : ℚ) / 10) / 2 ^ ((-2 : ℤ) - 23)⌋ = 10066329 := by
      rw [Int.floor_eq_iff]
      constructor <;> norm_num
    have h := roundBinary32_eq_of (3 / 10) (-2) 10066330
      (by norm_num [abs_le, abs_lt, le_abs]) (by norm_num [abs_le, abs_lt, le_abs])
      (by norm_num)
      (by
        unfold roundHalfEven
        rw [hfl]
        norm_num)
      (by norm_num [FLT_MAX, abs_le, abs_lt, le_abs])
    rw [h]
    norm_num
  · have h := traced_velPid_log_F32 Pid.ops (AltitudeHoldPid.new Pid.ops.traced 0.1 1 0 0)
      (mkTick (10066330 / 33554432) 10 0).1 (mkTick (10066330 / 33554432) 10 0).2 (3 / 4)
      (not_lt.mpr hout) (by
        show roundBinary32 (PILOT_VELZ_MAX * (10066330 / 33554432)) = some (3 / 4)
        rw [hprod]
        exact roundBinary32_tie)
    rw [h]
    simp [AltitudeHoldPid.new, PidOps.traced, mkTick]
  · rw [hprod]
    norm_num

/-- C8 (amended): on a tick whose throttle demand `d` is outside the deadband and whose product
`2.5 * d` is in the finite binary32 range, the only call made on `_velPid` is `compute` with
the target velocity `tv` that is the binary32 rounding of `PILOT_VELZ_MAX * d`: within
relative error `2^-24` of `2.5 * d`, without clamping; `d = 1.0` gives 2.5, `d = -1.0` gives
-2.5, and every binary32 `d` with `|d| > 1` (every `d` with `|d| ≥ 1 + 2^-23`) gives a target
beyond 2.5 in absolute value. -/
theorem C8_outOfBand_target_velocity_is_rounded_product {P : Type} (ops : PidOps P)
    (c : AltitudeHoldPid (P × List PidCall)) (st : state_t) (dem : demands_t)
    (hout : STICK_DEADBAND ≤ |dem.throttle|)
    (hfin : |PILOT_VELZ_MAX * dem.throttle| ≤ FLT_MAX) :
    ∃ tv : ℚ, roundBinary32 (PILOT_VELZ_MAX * dem.throttle) = some tv ∧
      (c.modifyDemandsF32 ops.traced st dem).map (fun r => r.1._velPid.2) =
        some (c._velPid.2 ++ [PidCall.compute tv (st.inertialVel 2)]) ∧
      |tv - 2.5 * dem.throttle| ≤ 2 ^ (-24 : ℤ) * |2.5 * dem.throttle| ∧
      (dem.throttle = 1 → tv = 2.5) ∧
      (dem.throttle = -1 → tv = -2.5) ∧
      (1 + 2 ^ (-23 : ℤ) ≤ |dem.throttle| → 2.5 < |tv|) ∧
      (roundBinary32 dem.throttle = some dem.throttle → 1 < |dem.throttle| → 2.5 < |tv|) := by
  have hnot : ¬ |dem.throttle| < STICK_DEADBAND := not_lt.mpr hout
  have habs : |PILOT_VELZ_MAX * dem.throttle| = 5 / 2 * |dem.throttle| := by
    rw [PILOT_VELZ_MAX_eq, abs_mul, abs_of_pos (by norm_num : (0 : ℚ) < 5 / 2)]
  have hlo : (2 : ℚ) ^ (-126 : ℤ) ≤ |PILOT_VELZ_MAX * dem.throttle| := by
    rw [habs]
    rw [STICK_DEADBAND_eq] at hout
    have : (2 : ℚ) ^ (-126 : ℤ) ≤ 1 / 4 := by norm_num
    linarith
  obtain ⟨tv, htv, herr⟩ := roundBinary32_spec _ hlo hfin
  have hbeyond : 1 + (2 : ℚ) ^ (-23 : ℤ) ≤ |dem.throttle| → 2.5 < |tv| := by
    intro hd
    have h1 := abs_sub_abs_le_abs_sub (PILOT_VELZ_MAX * dem.throttle) tv
    rw [abs_sub_comm] at h1
    rw [habs] at herr h1
    norm_num at hd herr h1 ⊢
    linarith
  refine ⟨tv, htv, traced_velPid_log_F32 ops c st dem tv hnot htv, herr, ?_, ?_, hbeyond, ?_⟩
  · intro h1
    rw [h1] at htv
    have h5 : PILOT_VELZ_MAX * 1 = 5 / 2 := by norm_num [PILOT_VELZ_MAX]
    rw [h5, roundBinary32_five_halves] at htv
    rw [← Option.some.inj htv]
    norm_num
  · intro h1
    rw [h1] at htv
    have h5 : PILOT_VELZ_MAX * (-1) = -(5 / 2) := by norm_num [PILOT_VELZ_MAX]
    rw [h5, roundBinary32_neg_five_halves] at htv
    rw [← Option.some.inj htv]
    norm_num
  · intro hrep h1
    exact hbeyond (one_add_ulp_le_of_binary32 _ hrep h1)

/-- C8 witness: in the binary32 model demand 1.0 gives target velocity 2.5, demand -1.0 gives
-2.5 and demand 2 gives 5. -/
theorem C8_outOfBand_target_velocity_is_rounded_product_witness :
    ((AltitudeHoldPid.new Pid.ops.traced 0.1 1 0 0).modifyDemandsF32 Pid.ops.traced
      (mkTick 1.0 10 0).1 (mkTick 1.0 10 0).2).map (fun r => r.1._velPid.2) =
        some [PidCall.compute 2.5 0] ∧
    ((AltitudeHoldPid.new Pid.ops.traced 0.1 1 0 0).modifyDemandsF32 Pid.ops.traced
      (mkTick (-1.0) 10 0).1 (mkTick (-1.0) 10 0).2).map (fun r => r.1._velPid.2) =
        some [PidCall.compute (-2.5) 0] ∧
    ((AltitudeHoldPid.new Pid.ops.traced 0.1 1 0 0).modifyDemandsF32 Pid.ops.traced
      (mkTick 2 10 0).1 (mkTick 2 10 0).2).map (fun r => r.1._velPid.2) =
        some [PidCall.compute 5 0] := by
  refine ⟨?_, ?_, ?_⟩
  · obtain ⟨tv, _, hlog, _, h1, _⟩ := C8_outOfBand_target_velocity_is_rounded_product Pid.ops
      (AltitudeHoldPid.new Pid.ops.traced 0.1 1 0 0) (mkTick 1.0 10 0).1 (mkTick 1.0 10 0).2
      (by norm_num [mkTick, STICK_DEADBAND])
      (by norm_num [mkTick, PILOT_VELZ_MAX, FLT_MAX, abs_le])
    rw [hlog, h1 (by norm_num [mkTick])]
    simp [AltitudeHoldPid.new, PidOps.traced, mkTick]
  · obtain ⟨tv, _, hlog, _, _, h1, _⟩ := C8_outOfBand_target_velocity_is_rounded_product Pid.ops
      (AltitudeHoldPid.new Pid.ops.traced 0.1 1 0 0) (mkTick (-1.0) 10 0).1 (mkTick (-1.0) 10 0).2
      (by norm_num [mkTick, STICK_DEADBAND])
      (by norm_num [mkTick, PILOT_VELZ_MAX, FLT_MAX, abs_le])
    rw [hlog, h1 (by norm_num [mkTick])]
    simp [AltitudeHoldPid.new, PidOps.traced, mkTick]
  · obtain ⟨tv, htv, hlog, _⟩ := C8_outOfBand_target_velocity_is_rounded_product Pid.ops
      (AltitudeHoldPid.new Pid.ops.traced 0.1 1 0 0) (mkTick 2 10 0).1 (mkTick 2 10 0).2
      (by norm_num [mkTick, STICK_DEADBAND])
      (by norm_num [mkTick, PILOT_VELZ_MAX, FLT_MAX, abs_le])
    have h5 : PILOT_VELZ_MAX * (mkTick 2 10 0).2.throttle = 5 := by
      norm_num [mkTick, PILOT_VELZ_MAX]
    rw [h5, roundBinary32_five] at htv
    rw [hlog, ← Option.some.inj htv]
    simp [AltitudeHoldPid.new, PidOps.traced, mkTick]

/-! ## C9 -/

/-- C9 as stated fails: with gains 0.1 / 1, 0, 0, a first tick with throttle 0.5 and a second
tick with throttle 0 at altitude 10, the target velocity passed to the velocity PID in the
second tick is 0.1 * (0 - 10) = -1, not 0. -/
theorem C9_counterexample_entry_tick_target_velocity :
    ((AltitudeHoldPid.new Pid.ops.traced 0.1 1 0 0).run Pid.ops.traced
      [mkTick 0.5 10 0, mkTick 0 10 0])._velPid.2 =
        [PidCall.compute 1.25 0, PidCall.reset, PidCall.compute (-1) 0] ∧
    ((AltitudeHoldPid.new Pid.ops.traced 0.1 1 0 0).run Pid.ops.traced
      [mkTick 0.5 10 0, mkTick 0 10 0])._velPid.2 ≠
        [PidCall.compute 1.25 0, PidCall.reset, PidCall.compute 0 0] := by
  have h : ((AltitudeHoldPid.new Pid.ops.traced 0.1 1 0 0).run Pid.ops.traced
      [mkTick 0.5 10 0, mkTick 0 10 0])._velPid.2 =
        [PidCall.compute 1.25 0, PidCall.reset, PidCall.compute (-1) 0] := by
    simp only [AltitudeHoldPid.run, traced_velPid_log, modifyDemands_inBandPrev,
      modifyDemands_altitudeTarget, modifyDemands_posPid]
    norm_num [AltitudeHoldPid.new, PidOps.traced, mkTick, Pid.ops, Pid.init, Pid.compute,
      STICK_DEADBAND, PILOT_VELZ_MAX, abs_lt]
  refine ⟨h, ?_⟩
  rw [h]
  intro hh
  simp only [List.cons.injEq, PidCall.compute.injEq, and_true, true_and] at hh
  norm_num at hh

/-- C9 (amended): for a controller constructed with gains 0.1 / 1, 0, 0 and any altitudes and
velocities, tick 1 with throttle 0.5 passes target velocity 2.5 * 0.5 = 1.25 to the velocity
PID; tick 2 with throttle 0 resets the velocity PID, passes the target velocity
0.1 * (0 - altitude) computed against the target 0 held before the tick (which is 0 only when
the altitude is 0), and afterwards the altitude target is the altitude of tick 2. -/
theorem C9_scenario_entry_tick_uses_previous_target (st1 st2 : state_t)
    (r1 p1 y1 r2 p2 y2 : ℚ) :
    ((AltitudeHoldPid.new Pid.ops.traced 0.1 1 0 0).run Pid.ops.traced
      [(st1, { throttle := 0.5, roll := r1, pitch := p1, yaw := y1 })])._velPid.2 =
        [PidCall.compute 1.25 (st1.inertialVel 2)] ∧
    (1.25 : ℚ) = PILOT_VELZ_MAX * 0.5 ∧
    ((AltitudeHoldPid.new Pid.ops.traced 0.1 1 0 0).run Pid.ops.traced
      [(st1, { throttle := 0.5, roll := r1, pitch := p1, yaw := y1 }),
        (st2, { throttle := 0.0, roll := r2, pitch := p2, yaw := y2 })])._velPid.2 =
        [PidCall.compute 1.25 (st1.inertialVel 2), PidCall.reset,
          PidCall.compute (0.1 * (0 - st2.location 2)) (st2.inertialVel 2)] ∧
    ((0.1 : ℚ) * (0 - st2.location 2) = 0 ↔ st2.location 2 = 0) ∧
    ((AltitudeHoldPid.new Pid.ops.traced 0.1 1 0 0).run Pid.ops.traced
      [(st1, { throttle := 0.5, roll := r1, pitch := p1, yaw := y1 }),
        (st2, { throttle := 0.0, roll := r2, pitch := p2, yaw := y2 })])._altitudeTarget =
        st2.location 2 := by
  refine ⟨?_, by norm_num [PILOT_VELZ_MAX], ?_, ?_, ?_⟩
  · simp only [AltitudeHoldPid.run, traced_velPid_log]
    norm_num [AltitudeHoldPid.new, PidOps.traced, STICK_DEADBAND, PILOT_VELZ_MAX, abs_lt]
  · simp only [AltitudeHoldPid.run, traced_velPid_log, modifyDemands_inBandPrev,
      modifyDemands_altitudeTarget, modifyDemands_posPid]
    norm_num [AltitudeHoldPid.new, PidOps.traced, Pid.ops, Pid.init, Pid.compute,
      STICK_DEADBAND, PILOT_VELZ_MAX, abs_lt]
  · constructor
    · intro h
      linarith
    · intro h
      rw [h]
      norm_num
  · simp only [AltitudeHoldPid.run, modifyDemands_inBandPrev, modifyDemands_altitudeTarget]
    norm_num [AltitudeHoldPid.new, STICK_DEADBAND, abs_lt]

/-! ## C10 -/

/-- C10: the constructor initialises the position PID with proportional gain `Kp_pos` and
integral and derivative gains 0; a `Pid` with those gains computes exactly
`Kp_pos * (target - measured)` whatever its accumulator and previous error, and this holds for
the position PID of the controller after any sequence of ticks. -/
theorem C10_posPid_is_pure_proportional (Kp_pos Kp_vel Ki_vel Kd_vel : ℚ) :
    (AltitudeHoldPid.new Pid.ops Kp_pos Kp_vel Ki_vel Kd_vel)._posPid.Kp = Kp_pos ∧
    (AltitudeHoldPid.new Pid.ops Kp_pos Kp_vel Ki_vel Kd_vel)._posPid.Ki = 0 ∧
    (AltitudeHoldPid.new Pid.ops Kp_pos Kp_vel Ki_vel Kd_vel)._posPid.Kd = 0 ∧
    (∀ integral prevError target measured : ℚ,
      (Pid.compute (Pid.mk Kp_pos 0 0 integral prevError) target measured).1 =
        Kp_pos * (target - measured)) ∧
    (∀ (ticks : List (state_t × demands_t)) (target measured : ℚ),
      (Pid.compute ((AltitudeHoldPid.new Pid.ops Kp_pos Kp_vel Ki_vel Kd_vel).run Pid.ops
        ticks)._posPid target measured).1 = Kp_pos * (target - measured)) := by
  refine ⟨rfl, rfl, rfl, ?_, ?_⟩
  · intro integral prevError target measured
    exact Pid.compute_fst_of_P_only _ rfl rfl target measured
  · intro ticks target measured
    obtain ⟨hp, hi, hd⟩ :=
      run_posPid_gains (AltitudeHoldPid.new Pid.ops Kp_pos Kp_vel Ki_vel Kd_vel) ticks
    rw [Pid.compute_fst_of_P_only _ (hi.trans rfl) (hd.trans rfl), hp]
    rfl

/-! ## C11 -/

/-- C11: `modifyDemands` changes only the throttle field of the demands: roll, pitch and yaw
after the call equal their values before it, and the vehicle state is left as it was. -/
theorem C11_only_throttle_is_written {P : Type} (ops : PidOps P) (c : AltitudeHoldPid P)
    (st : state_t) (dem : demands_t) :
    (c.modifyDemands ops st dem).2.2.roll = dem.roll ∧
    (c.modifyDemands ops st dem).2.2.pitch = dem.pitch ∧
    (c.modifyDemands ops st dem).2.2.yaw = dem.yaw ∧
    (c.modifyDemands ops st dem).2.1 = st := by
  rw [modifyDemands_eq]
  exact ⟨rfl, rfl, rfl, rfl⟩

/-! ## C12 -/

/-- C12: `shouldFlashLed` returns true for every controller state and changes no field of the
controller. -/
theorem C12_shouldFlashLed_always_true {P : Type} (c : AltitudeHoldPid P) :
    c.shouldFlashLed.1 = true ∧ c.shouldFlashLed.2 = c :=
  ⟨rfl, rfl⟩

/-! ## C13 -/

/-- C13: `Pid.reset` is idempotent and preserves gains: resetting twice gives the state of a
single reset, in which the integral accumulator and the previous error are zero and `Kp`,
`Ki`, `Kd` are unchanged. -/
theorem C13_Pid_reset_idempotent (p : Pid) :
    p.reset.reset = p.reset ∧
    p.reset.integral = 0 ∧ p.reset.prevError = 0 ∧
    p.reset.Kp = p.Kp ∧ p.reset.Ki = p.Ki ∧ p.reset.Kd = p.Kd ∧
    Pid.ops.reset (Pid.ops.reset p) = Pid.ops.reset p :=
  ⟨rfl, rfl, rfl, rfl, rfl, rfl, rfl⟩

/-! ## C14 -/

/-- C14: on a tick that enters the deadband the velocity PID is reset before its `compute`
call, so a controller whose velocity PID carries any other accumulated integral and previous
error writes the same throttle and ends with the same velocity-PID state. -/
theorem C14_no_windup_carried_into_hold (c : AltitudeHoldPid Pid) (integral prevError : ℚ)
    (st : state_t) (dem : demands_t)
    (hin : |dem.throttle| < STICK_DEADBAND) (hprev : c._inBandPrev = false) :
    ((AltitudeHoldPid.mk c._inBandPrev c.didReset c._posPid
        (Pid.mk c._velPid.Kp c._velPid.Ki c._velPid.Kd integral prevError)
        c._altitudeTarget).modifyDemands Pid.ops st dem).2.2.throttle =
      (c.modifyDemands Pid.ops st dem).2.2.throttle ∧
    ((AltitudeHoldPid.mk c._inBandPrev c.didReset c._posPid
        (Pid.mk c._velPid.Kp c._velPid.Ki c._velPid.Kd integral prevError)
        c._altitudeTarget).modifyDemands Pid.ops st dem).1._velPid =
      (c.modifyDemands Pid.ops st dem).1._velPid ∧
    (∀ ct : AltitudeHoldPid (Pid × List PidCall), ct._inBandPrev = false →
      (ct.modifyDemands Pid.ops.traced st dem).1._velPid.2 =
        ct._velPid.2 ++ [PidCall.reset,
          PidCall.compute (Pid.compute ct._posPid.1 ct._altitudeTarget (st.location 2)).1
            (st.inertialVel 2)]) := by
  refine ⟨?_, ?_, ?_⟩
  · rw [modifyDemands_throttle, modifyDemands_throttle]
    simp only [hin, hprev, and_self, if_true]
    rfl
  · rw [modifyDemands_velPid, modifyDemands_velPid]
    simp only [hin, hprev, and_self, if_true]
    rfl
  · intro ct hct
    rw [traced_velPid_log]
    simp only [hin, hct, and_self, if_true, List.append_assoc, List.singleton_append]
    rfl

/-- C14 witness: entering the deadband at altitude 10 and vertical velocity 1 with velocity
gains 1, 0.5, 0.2, an accumulated integral of 100 and previous error -3 give the same throttle
as accumulators 0 and 0. -/
theorem C14_no_windup_carried_into_hold_witness :
    |(mkTick 0.05 10 1).2.throttle| < STICK_DEADBAND ∧
    ((AltitudeHoldPid.mk false false (Pid.init 0.1 0 0) (Pid.mk 1 0.5 0.2 100 (-3))
        0).modifyDemands Pid.ops (mkTick 0.05 10 1).1 (mkTick 0.05 10 1).2).2.2.throttle =
      ((AltitudeHoldPid.mk false false (Pid.init 0.1 0 0) (Pid.mk 1 0.5 0.2 0 0)
        0).modifyDemands Pid.ops (mkTick 0.05 10 1).1 (mkTick 0.05 10 1).2).2.2.throttle :=
  ⟨by norm_num [mkTick, STICK_DEADBAND, abs_lt],
    (C14_no_windup_carried_into_hold
      (AltitudeHoldPid.mk false false (Pid.init 0.1 0 0) (Pid.mk 1 0.5 0.2 0 0) 0) 100 (-3)
      (mkTick 0.05 10 1).1 (mkTick 0.05 10 1).2
      (by norm_num [mkTick, STICK_DEADBAND, abs_lt]) rfl).1⟩

/-! ## C15 -/

/-- C15: the incoming value of `didReset` is never read: two controller states that differ
only in `didReset` give the same controller, state and demands after `modifyDemands`; and the
controller is equivalent, tick by tick and over any sequence of ticks, to the controller in
which the latch is a variable local to the tick. -/
theorem C15_didReset_is_local_to_the_tick {P : Type} (ops : PidOps P) (c : AltitudeHoldPid P) :
    (∀ (b : Bool) (st : state_t) (dem : demands_t),
      (AltitudeHoldPid.mk c._inBandPrev b c._posPid c._velPid c._altitudeTarget).modifyDemands
        ops st dem = c.modifyDemands ops st dem) ∧
    (∀ (st : state_t) (dem : demands_t),
      (c.toLocal.modifyDemands ops st dem).1 = (c.modifyDemands ops st dem).1.toLocal ∧
      (c.toLocal.modifyDemands ops st dem).2 = (c.modifyDemands ops st dem).2) ∧
    (∀ ticks : List (state_t × demands_t),
      c.toLocal.run ops ticks = (c.run ops ticks).toLocal) := by
  refine ⟨fun b st dem => modifyDemands_didReset_irrelevant ops c b st dem, ?_,
    fun ticks => run_toLocal ops c ticks⟩
  intro st dem
  rw [modifyDemands_toLocal]
  exact ⟨rfl, rfl⟩

/-! ## C16 -/

/-- C16: the deadband test is strict and symmetric: after a tick `_inBandPrev` is true exactly
when `|d| < 0.10`; the demands 0.10 and -0.10 are outside the band (no reset, target velocity
`2.5 * d`, altitude target kept); and `d` and `-d` have the same band membership. -/
theorem C16_deadband_strict_and_symmetric {P : Type} (ops : PidOps P)
    (c : AltitudeHoldPid (P × List PidCall)) (st : state_t) (dem : demands_t) :
    ((c.modifyDemands ops.traced st dem).1._inBandPrev = true ↔ |dem.throttle| < 0.10) ∧
    ((c.modifyDemands ops.traced st
        (demands_t.mk 0.10 dem.roll dem.pitch dem.yaw)).1._inBandPrev = false ∧
      (c.modifyDemands ops.traced st (demands_t.mk 0.10 dem.roll dem.pitch dem.yaw)).1._velPid.2 =
        c._velPid.2 ++ [PidCall.compute (2.5 * 0.10) (st.inertialVel 2)] ∧
      (c.modifyDemands ops.traced st
        (demands_t.mk 0.10 dem.roll dem.pitch dem.yaw)).1._altitudeTarget = c._altitudeTarget) ∧
    ((c.modifyDemands ops.traced st
        (demands_t.mk (-0.10) dem.roll dem.pitch dem.yaw)).1._inBandPrev = false ∧
      (c.modifyDemands ops.traced st
        (demands_t.mk (-0.10) dem.roll dem.pitch dem.yaw)).1._velPid.2 =
        c._velPid.2 ++ [PidCall.compute (2.5 * (-0.10)) (st.inertialVel 2)] ∧
      (c.modifyDemands ops.traced st
        (demands_t.mk (-0.10) dem.roll dem.pitch dem.yaw)).1._altitudeTarget =
          c._altitudeTarget) ∧
    ((|(-dem.throttle)| < STICK_DEADBAND ↔ |dem.throttle| < STICK_DEADBAND) ∧
      (c.modifyDemands ops.traced st
        (demands_t.mk (-dem.throttle) dem.roll dem.pitch dem.yaw)).1._inBandPrev =
        (c.modifyDemands ops.traced st dem).1._inBandPrev) := by
  have hpos : ¬ |(0.10 : ℚ)| < STICK_DEADBAND := by
    rw [abs_of_pos (by norm_num : (0 : ℚ) < 0.10)]
    exact lt_irrefl (0.10 : ℚ)
  have hneg : ¬ |(-0.10 : ℚ)| < STICK_DEADBAND := by
    rw [abs_neg, abs_of_pos (by norm_num : (0 : ℚ) < 0.10)]
    exact lt_irrefl (0.10 : ℚ)
  refine ⟨?_, ⟨?_, ?_, ?_⟩, ⟨?_, ?_, ?_⟩, ?_, ?_⟩
  · rw [modifyDemands_inBandPrev]
    simp [STICK_DEADBAND]
  · rw [modifyDemands_inBandPrev]
    exact decide_eq_false hpos
  · rw [traced_velPid_log]
    simp only [hpos, false_and, if_false, List.append_nil]
    rfl
  · rw [modifyDemands_altitudeTarget]
    simp only [hpos, false_and, if_false]
  · rw [modifyDemands_inBandPrev]
    exact decide_eq_false hneg
  · rw [traced_velPid_log]
    simp only [hneg, false_and, if_false, List.append_nil]
    rfl
  · rw [modifyDemands_altitudeTarget]
    simp only [hneg, false_and, if_false]
  · rw [abs_neg]
  · rw [modifyDemands_inBandPrev, modifyDemands_inBandPrev]
    simp only [abs_neg]

/-! ## C17 -/

/-- C17: no saturation is applied to the written throttle: with a proportional-only velocity
PID of nonzero gain, whatever the controller state, the demands (in particular a throttle
demand in [-1, 1]) and the location, for every bound `B` some vertical velocity makes the
written throttle exceed `B` in absolute value; this holds in every state reached from a fresh
controller constructed with `Kp_vel` nonzero and `Ki_vel = Kd_vel = 0`. -/
theorem C17_throttle_is_not_saturated (B : ℚ) (dem : demands_t) (location : Fin 3 → ℚ) :
    (∀ c : AltitudeHoldPid Pid, c._velPid.Kp ≠ 0 → c._velPid.Ki = 0 → c._velPid.Kd = 0 →
      ∃ inertialVel : Fin 3 → ℚ,
        B < |(c.modifyDemands Pid.ops (state_t.mk location inertialVel) dem).2.2.throttle|) ∧
    (∀ (Kp_pos Kp_vel : ℚ) (ticks : List (state_t × demands_t)), Kp_vel ≠ 0 →
      ∃ inertialVel : Fin 3 → ℚ,
        B < |(((AltitudeHoldPid.new Pid.ops Kp_pos Kp_vel 0 0).run Pid.ops ticks).modifyDemands
          Pid.ops (state_t.mk location inertialVel) dem).2.2.throttle|) := by
  constructor
  · intro c hp hi hd
    exact throttle_unbounded_of_P_only c dem hp hi hd B location
  · intro Kp_pos Kp_vel ticks hK
    obtain ⟨hp, hi, hd⟩ := run_velPid_gains (AltitudeHoldPid.new Pid.ops Kp_pos Kp_vel 0 0) ticks
    exact throttle_unbounded_of_P_only _ dem (by rw [hp]; exact hK) (by rw [hi]; rfl)
      (by rw [hd]; rfl) B location

/-- C17 witness: for the bound 1000, a fresh controller with gains 0.1 / 1, 0, 0 and throttle
demand 0.5 at altitude 10, some vertical velocity gives a written throttle beyond 1000. -/
theorem C17_throttle_is_not_saturated_witness :
    ∃ inertialVel : Fin 3 → ℚ,
      (1000 : ℚ) < |((AltitudeHoldPid.new Pid.ops 0.1 1 0 0).modifyDemands Pid.ops
        (state_t.mk ![0, 0, 10] inertialVel) (mkTick 0.5 10 0).2).2.2.throttle| :=
  (C17_throttle_is_not_saturated 1000 (mkTick 0.5 10 0).2 ![0, 0, 10]).1
    (AltitudeHoldPid.new Pid.ops 0.1 1 0 0) (by norm_num [AltitudeHoldPid.new, Pid.ops, Pid.init])
    rfl rfl

/-! ## C18 -/

/-- C18: on a freshly constructed controller a first tick whose throttle demand is inside the
deadband is a deadband entry: the velocity PID is reset and then run on the output of the
outer loop, which is computed against target 0, and `_altitudeTarget` becomes the tick's
altitude. -/
theorem C18_first_tick_in_band_is_entry {P : Type} (ops : PidOps P)
    (Kp_pos Kp_vel Ki_vel Kd_vel : ℚ) (st : state_t) (dem : demands_t)
    (hin : |dem.throttle| < STICK_DEADBAND) :
    ((AltitudeHoldPid.new ops.traced Kp_pos Kp_vel Ki_vel Kd_vel).modifyDemands ops.traced
      st dem).1._velPid.2 =
        [PidCall.reset,
          PidCall.compute (ops.compute (ops.init Kp_pos 0 0) 0 (st.location 2)).1
            (st.inertialVel 2)] ∧
    ((AltitudeHoldPid.new ops.traced Kp_pos Kp_vel Ki_vel Kd_vel).modifyDemands ops.traced
      st dem).1._posPid.2 = [PidCall.compute 0 (st.location 2)] ∧
    ((AltitudeHoldPid.new ops.traced Kp_pos Kp_vel Ki_vel Kd_vel).modifyDemands ops.traced
      st dem).1._altitudeTarget = st.location 2 ∧
    ((AltitudeHoldPid.new ops.traced Kp_pos Kp_vel Ki_vel Kd_vel).modifyDemands ops.traced
      st dem).1.didReset = true := by
  refine ⟨?_, ?_, ?_, ?_⟩
  · rw [traced_velPid_log]
    simp [hin, AltitudeHoldPid.new, PidOps.traced]
  · rw [traced_posPid_log]
    simp [AltitudeHoldPid.new, PidOps.traced]
  · rw [modifyDemands_altitudeTarget]
    simp [hin, AltitudeHoldPid.new]
  · rw [modifyDemands_didReset]
    simp [hin, AltitudeHoldPid.new]

/-- C18 witness: a fresh controller with gains 0.1 / 1, 0, 0 whose first tick has throttle 0 at
altitude 7 resets the velocity PID, feeds it 0.1 * (0 - 7) = -0.7 and captures the target 7. -/
theorem C18_first_tick_in_band_is_entry_witness :
    ((AltitudeHoldPid.new Pid.ops.traced 0.1 1 0 0).modifyDemands Pid.ops.traced
      (mkTick 0 7 0).1 (mkTick 0 7 0).2).1._velPid.2 =
        [PidCall.reset, PidCall.compute (-0.7) 0] ∧
    ((AltitudeHoldPid.new Pid.ops.traced 0.1 1 0 0).modifyDemands Pid.ops.traced
      (mkTick 0 7 0).1 (mkTick 0 7 0).2).1._altitudeTarget = 7 := by
  have h := C18_first_tick_in_band_is_entry Pid.ops 0.1 1 0 0 (mkTick 0 7 0).1 (mkTick 0 7 0).2
    (by norm_num [mkTick, STICK_DEADBAND])
  constructor
  · rw [h.1]
    norm_num [mkTick, Pid.ops, Pid.init, Pid.compute]
  · rw [h.2.2.1]
    simp [mkTick]

/-! ## C19 -/

/-- C19: on a tick whose throttle demand is outside the deadband the written throttle does not
depend on the altitude, the altitude target or the position PID: two runs that agree on the
velocity PID, the throttle demand and `state.inertialVel[2]` write the same throttle and leave
the same velocity PID, although `_posPid.compute` is still called. -/
theorem C19_outOfBand_throttle_ignores_altitude {P : Type} (ops : PidOps P)
    (c1 c2 : AltitudeHoldPid P) (st1 st2 : state_t) (dem1 dem2 : demands_t)
    (hout : ¬ |dem1.throttle| < STICK_DEADBAND) (hdem : dem2.throttle = dem1.throttle)
    (hpid : c2._velPid = c1._velPid) (hvel : st2.inertialVel 2 = st1.inertialVel 2) :
    (c2.modifyDemands ops st2 dem2).2.2.throttle = (c1.modifyDemands ops st1 dem1).2.2.throttle ∧
    (c2.modifyDemands ops st2 dem2).1._velPid = (c1.modifyDemands ops st1 dem1).1._velPid ∧
    (∀ ct : AltitudeHoldPid (P × List PidCall),
      (ct.modifyDemands ops.traced st1 dem1).1._posPid.2 =
        ct._posPid.2 ++ [PidCall.compute ct._altitudeTarget (st1.location 2)]) := by
  refine ⟨?_, ?_, fun ct => traced_posPid_log ops ct st1 dem1⟩
  · rw [modifyDemands_throttle, modifyDemands_throttle, hdem, hpid, hvel]
    simp only [hout, false_and, if_false]
  · rw [modifyDemands_velPid, modifyDemands_velPid, hdem, hpid, hvel]
    simp only [hout, false_and, if_false]

/-- C19 witness: with throttle demand 0.5 and vertical velocity 1, a controller at altitude 10
holding target 3 and one at altitude 200 holding target 50 with another position PID state
write the same throttle. -/
theorem C19_outOfBand_throttle_ignores_altitude_witness :
    ¬ |(mkTick 0.5 10 1).2.throttle| < STICK_DEADBAND ∧
    ((AltitudeHoldPid.mk true false (Pid.mk 0.3 0 0 5 6) (Pid.mk 1 0.5 0.2 4 2)
        50).modifyDemands Pid.ops (mkTick 0.5 200 1).1 (mkTick 0.5 200 1).2).2.2.throttle =
      ((AltitudeHoldPid.mk false false (Pid.init 0.1 0 0) (Pid.mk 1 0.5 0.2 4 2)
        3).modifyDemands Pid.ops (mkTick 0.5 10 1).1 (mkTick 0.5 10 1).2).2.2.throttle :=
  ⟨by norm_num [mkTick, STICK_DEADBAND, abs_lt],
    (C19_outOfBand_throttle_ignores_altitude Pid.ops
      (AltitudeHoldPid.mk false false (Pid.init 0.1 0 0) (Pid.mk 1 0.5 0.2 4 2) 3)
      (AltitudeHoldPid.mk true false (Pid.mk 0.3 0 0 5 6) (Pid.mk 1 0.5 0.2 4 2) 50)
      (mkTick 0.5 10 1).1 (mkTick 0.5 200 1).1 (mkTick 0.5 10 1).2 (mkTick 0.5 200 1).2
      (by norm_num [mkTick, STICK_DEADBAND, abs_lt]) rfl rfl
      (by simp [mkTick])).1⟩

/-! ## C20 -/

/-- C20: after every `modifyDemands` tick `_inBandPrev` is the band membership of that tick's
incoming throttle demand, whatever its previous value, and `didReset` is true exactly when the
demand is in band and `_inBandPrev` was false before the tick. -/
theorem C20_flags_after_tick {P : Type} (ops : PidOps P) (c : AltitudeHoldPid P)
    (st : state_t) (dem : demands_t) :
    (c.modifyDemands ops st dem).1._inBandPrev = decide (|dem.throttle| < STICK_DEADBAND) ∧
    ((c.modifyDemands ops st dem).1._inBandPrev = true ↔ |dem.throttle| < 0.10) ∧
    ((c.modifyDemands ops st dem).1.didReset = true ↔
      (|dem.throttle| < 0.10 ∧ c._inBandPrev = false)) := by
  rw [modifyDemands_inBandPrev, modifyDemands_didReset]
  refine ⟨rfl, ?_, ?_⟩
  · simp [STICK_DEADBAND]
  · simp [STICK_DEADBAND]

end hf
